import Mathlib

/-!
Verification of the libcno HTTP/2 core (src/unnamed/part_000, "core.c").

This file gives a shallow embedding of the connection/stream/frame layer of
the engine and proves properties of it.  Conventions used throughout:

* Machine integers are modelled as `Nat` (unsigned) or `Int` (the signed
  32-bit windows), with truncation written out explicitly where the C code
  relies on it.
* The engine is a sans-I/O state machine; its callbacks are modelled as an
  event trace (`Ev`).  User callbacks are assumed to return success (0), so
  the `CNO_ERROR_UP` branches taken only when a user callback fails are not
  reachable in the model; the events they would have produced are recorded.
* The HPACK codec is declared in src/cno/hpack.h but its implementation is
  not part of the sources; functions that need `cno_hpack_decode` take it as
  an explicit oracle argument `hdec`.
* The stream hash table (61 buckets of intrusive singly-linked lists) is
  modelled as a single association list with insertion at the head; `find`
  returns the first stream with a matching id, exactly as the bucketed
  search does for the ids that can coexist.
* Byte strings on the wire are `List Nat` with each element reduced mod 256
  by the read/write helpers, mirroring the `uint8_t` views of the C code.
-/

namespace Cno

/-- `enum CNO_FRAME_TYPE`: DATA. -/
def CNO_FRAME_DATA : Nat := 0
/-- `enum CNO_FRAME_TYPE`: HEADERS. -/
def CNO_FRAME_HEADERS : Nat := 1
/-- `enum CNO_FRAME_TYPE`: PRIORITY. -/
def CNO_FRAME_PRIORITY : Nat := 2
/-- `enum CNO_FRAME_TYPE`: RST_STREAM. -/
def CNO_FRAME_RST_STREAM : Nat := 3
/-- `enum CNO_FRAME_TYPE`: SETTINGS. -/
def CNO_FRAME_SETTINGS : Nat := 4
/-- `enum CNO_FRAME_TYPE`: PUSH_PROMISE. -/
def CNO_FRAME_PUSH_PROMISE : Nat := 5
/-- `enum CNO_FRAME_TYPE`: PING. -/
def CNO_FRAME_PING : Nat := 6
/-- `enum CNO_FRAME_TYPE`: GOAWAY. -/
def CNO_FRAME_GOAWAY : Nat := 7
/-- `enum CNO_FRAME_TYPE`: WINDOW_UPDATE. -/
def CNO_FRAME_WINDOW_UPDATE : Nat := 8
/-- `enum CNO_FRAME_TYPE`: CONTINUATION. -/
def CNO_FRAME_CONTINUATION : Nat := 9
/-- `enum CNO_FRAME_TYPE`: first unknown (ignored) frame type. -/
def CNO_FRAME_UNKNOWN : Nat := 10

/-- HTTP/2 error codes (`enum CNO_RST_STREAM_CODE`, RFC 7540 §7). -/
def CNO_RST_NO_ERROR : Nat := 0
def CNO_RST_PROTOCOL_ERROR : Nat := 1
def CNO_RST_FLOW_CONTROL_ERROR : Nat := 3
def CNO_RST_STREAM_CLOSED : Nat := 5
def CNO_RST_FRAME_SIZE_ERROR : Nat := 6
def CNO_RST_COMPRESSION_ERROR : Nat := 9
def CNO_RST_ENHANCE_YOUR_CALM : Nat := 11

/-- Compile-time knobs from src/cno/config.h. -/
def CNO_MAX_CONTINUATIONS : Nat := 3
def CNO_STREAM_RESET_HISTORY : Nat := 7

/-- Error kinds (`CNO_ERROR(...)` tags, spec §7). -/
inductive CnoErr where
  | assertion
  | noMemory
  | invalidStream
  | wouldBlock
  | transport
  | disconnect
deriving DecidableEq, Repr

/-- The frame flag byte, restricted to the bits the code reads or writes.
Bit 0 is `CNO_FLAG_END_STREAM` and doubles as `CNO_FLAG_ACK`; bit 2 is
`CNO_FLAG_END_HEADERS`; bit 3 is `CNO_FLAG_PADDED`; bit 5 is
`CNO_FLAG_PRIORITY`.  The remaining bits are never tested or changed. -/
structure CnoFlags where
  endStream : Bool := false
  endHeaders : Bool := false
  padded : Bool := false
  priorityF : Bool := false
deriving DecidableEq, Repr

/-- `CNO_FLAG_ACK` occupies the same bit as `CNO_FLAG_END_STREAM`. -/
def CnoFlags.ack (f : CnoFlags) : Bool := f.endStream

/-- Bitwise OR of two flag bytes (`frame->flags |= conn->continued_flags`). -/
def CnoFlags.orWith (a b : CnoFlags) : CnoFlags :=
  ⟨a.endStream || b.endStream, a.endHeaders || b.endHeaders,
   a.padded || b.padded, a.priorityF || b.priorityF⟩

/-- Truncate to a byte, as the `uint8_t` loads in the C code do. -/
def byte (x : Nat) : Nat := x % 256

/-- `read2`: big-endian 16-bit load. -/
def read2 (l : List Nat) : Nat :=
  byte (l.getD 0 0) * 256 + byte (l.getD 1 0)

/-- `read4`: big-endian 32-bit load. -/
def read4 (l : List Nat) : Nat :=
  byte (l.getD 0 0) * 2 ^ 24 + byte (l.getD 1 0) * 2 ^ 16 +
  byte (l.getD 2 0) * 2 ^ 8 + byte (l.getD 3 0)

/-- `read1`: byte load. -/
def read1 (l : List Nat) : Nat := byte (l.getD 0 0)

/-- `PACK(I16(x))`: big-endian 16-bit store. -/
def i16 (x : Nat) : List Nat := [x / 2 ^ 8 % 256, x % 256]

/-- `PACK(I32(x))`: big-endian 32-bit store. -/
def i32 (x : Nat) : List Nat :=
  [x / 2 ^ 24 % 256, x / 2 ^ 16 % 256, x / 2 ^ 8 % 256, x % 256]

/-- Reinterpret a `uint32_t` as `int32_t` (the window initialisers). -/
def int32OfUInt32 (v : Nat) : Int :=
  if v % 2 ^ 32 < 2 ^ 31 then (v % 2 ^ 32 : Int) else (v % 2 ^ 32 : Int) - 2 ^ 32

/-- `struct cno_settings_t`: six `uint32_t` fields, positionally mapped to
HTTP/2 setting identifiers 1..6. -/
structure CnoSettings where
  header_table_size : Nat
  enable_push : Nat
  max_concurrent_streams : Nat
  initial_window_size : Nat
  max_frame_size : Nat
  max_header_list_size : Nat
deriving DecidableEq, Repr

/-- `settings->array[j]` (0-based). -/
def CnoSettings.get (s : CnoSettings) (j : Nat) : Nat :=
  match j with
  | 0 => s.header_table_size
  | 1 => s.enable_push
  | 2 => s.max_concurrent_streams
  | 3 => s.initial_window_size
  | 4 => s.max_frame_size
  | _ => s.max_header_list_size

/-- `settings->array[j] = v` (0-based). -/
def CnoSettings.setIdx (s : CnoSettings) (j : Nat) (v : Nat) : CnoSettings :=
  match j with
  | 0 => { s with header_table_size := v }
  | 1 => { s with enable_push := v }
  | 2 => { s with max_concurrent_streams := v }
  | 3 => { s with initial_window_size := v }
  | 4 => { s with max_frame_size := v }
  | _ => { s with max_header_list_size := v }

/-- `CNO_SETTINGS_STANDARD` (protocol defaults; `-1` is `0xFFFFFFFF`). -/
def CNO_SETTINGS_STANDARD : CnoSettings :=
  ⟨4096, 1, 4294967295, 65535, 16384, 4294967295⟩

/-- `CNO_SETTINGS_CONSERVATIVE` (assumed remote defaults). -/
def CNO_SETTINGS_CONSERVATIVE : CnoSettings :=
  ⟨4096, 1, 100, 65535, 16384, 4294967295⟩

/-- `CNO_SETTINGS_INITIAL` (what this endpoint advertises). -/
def CNO_SETTINGS_INITIAL : CnoSettings :=
  ⟨4096, 1, 1024, 65535, 16384, 4294967295⟩

/-- `struct cno_frame_t`.  The payload is the byte view. -/
structure CnoFrame where
  typ : Nat
  flags : CnoFlags
  stream : Nat
  payload : List Nat
deriving DecidableEq, Repr

/-- A decoded header (`struct cno_header_t` without the ownership flags). -/
structure CnoHeader where
  name : String
  value : String
deriving DecidableEq, Repr

/-- `struct cno_message_t` as it is delivered to callbacks. -/
structure CnoMessage where
  code : Nat
  method : String
  path : String
  headers : List CnoHeader
deriving DecidableEq, Repr

/-- The stream acceptance bitmask (`enum CNO_STREAM_ACCEPT`). -/
structure CnoAccept where
  headers : Bool := false
  data : Bool := false
  trailers : Bool := false
  writeHeaders : Bool := false
  writeData : Bool := false
  writePush : Bool := false
  push : Bool := false
  nopHeaders : Bool := false
deriving DecidableEq, Repr

/-- `accept != 0`. -/
def CnoAccept.any (a : CnoAccept) : Bool :=
  a.headers || a.data || a.trailers || a.writeHeaders || a.writeData ||
  a.writePush || a.push || a.nopHeaders

/-- `accept &= ~CNO_ACCEPT_INBOUND`. -/
def CnoAccept.clearInbound (a : CnoAccept) : CnoAccept :=
  { a with headers := false, data := false, trailers := false }

/-- `accept &= ~CNO_ACCEPT_OUTBOUND`. -/
def CnoAccept.clearOutbound (a : CnoAccept) : CnoAccept :=
  { a with writeHeaders := false, writeData := false, writePush := false }

/-- `struct cno_stream_t` (the bucket link is implicit in the list). -/
structure CnoStream where
  id : Nat
  accept : CnoAccept
  windowRecv : Int
  windowSend : Int
deriving DecidableEq, Repr

/-- `enum CNO_CONNECTION_STATE`. -/
inductive ConnState where
  | undefined
  | init
  | preface
  | readyNoSettings
  | ready
  | http1Ready
  | http1Reading
  | http1ReadingUpgrade
  | unknownProtocolUpgrade
  | unknownProtocol
deriving DecidableEq, Repr

/-- `struct cno_connection_t`, restricted to the frame/stream layer.  The two
HPACK states are represented only by their `limit_upper` fields (the table
implementation lives outside these sources).  `settings[CNO_REMOTE]` is
`settingsRemote` (index 0), `settings[CNO_LOCAL]` is `settingsLocal`
(index 1); the same convention names the `last_stream` and `stream_count`
pairs. -/
structure CnoConn where
  client : Bool
  state : ConnState
  settingsRemote : CnoSettings
  settingsLocal : CnoSettings
  lastStreamRemote : Nat
  lastStreamLocal : Nat
  streamCountRemote : Nat
  streamCountLocal : Nat
  windowRecv : Int
  windowSend : Int
  continuedStream : Nat
  continuedPromise : Nat
  continuedFlags : CnoFlags
  continued : List Nat
  goawaySent : Nat
  streams : List CnoStream
  manualFlowControl : Bool
  disallowH2Upgrade : Bool
  disallowH2PriorKnowledge : Bool
  writingChunked : Bool
  recentlyReset : List Nat
  recentlyResetNext : Nat
  http1Remaining : Nat
  decoderLimitUpper : Nat
  encoderLimitUpper : Nat
deriving DecidableEq, Repr

/-- `last_stream[local]` with `local : Bool` (`true` = `CNO_LOCAL`). -/
def CnoConn.lastStream (c : CnoConn) (lcl : Bool) : Nat :=
  if lcl then c.lastStreamLocal else c.lastStreamRemote

def CnoConn.setLastStream (c : CnoConn) (lcl : Bool) (v : Nat) : CnoConn :=
  if lcl then { c with lastStreamLocal := v } else { c with lastStreamRemote := v }

/-- `stream_count[local]`. -/
def CnoConn.streamCount (c : CnoConn) (lcl : Bool) : Nat :=
  if lcl then c.streamCountLocal else c.streamCountRemote

def CnoConn.setStreamCount (c : CnoConn) (lcl : Bool) (v : Nat) : CnoConn :=
  if lcl then { c with streamCountLocal := v } else { c with streamCountRemote := v }

/-- `settings[side]` with `side : Bool` (`true` = `CNO_LOCAL`). -/
def CnoConn.settingsOf (c : CnoConn) (side : Bool) : CnoSettings :=
  if side then c.settingsLocal else c.settingsRemote

/-- The event trace: each constructor is one user callback invocation
(`CNO_FIRE`).  A `frame` event stands for the `on_frame_send` callback
followed by the wire bytes of that frame handed to `on_write`. -/
inductive Ev where
  | frame (f : CnoFrame)
  | write (bytes : List Nat)
  | streamStart (id : Nat)
  | streamEnd (id : Nat)
  | messageStart (id : Nat) (msg : CnoMessage)
  | messageData (id : Nat) (bytes : List Nat)
  | messageTrail (id : Nat) (msg : CnoMessage)
  | messageEnd (id : Nat)
  | messagePush (id : Nat) (msg : CnoMessage) (promised : Nat)
  | settingsEv
  | flowIncrease (id : Nat)
  | pong (bytes : List Nat)
deriving DecidableEq, Repr

/-- Result of a state-mutating engine routine: the new connection, the trace
of callbacks fired, and `none` for `CNO_OK` or the error kind thrown. -/
structure COut where
  conn : CnoConn
  evs : List Ev
  err : Option CnoErr
deriving DecidableEq, Repr

/-- `cno_stream_is_local`: `id % 2 == conn->client`. -/
def cno_stream_is_local (c : CnoConn) (id : Nat) : Bool :=
  id % 2 = (if c.client then 1 else 0)

/-- `cno_connection_is_http2`. -/
def cno_connection_is_http2 (c : CnoConn) : Bool :=
  c.state = ConnState.init || c.state = ConnState.preface ||
  c.state = ConnState.ready || c.state = ConnState.readyNoSettings ||
  c.state = ConnState.http1ReadingUpgrade

/-- `cno_stream_find`: first stream with the given id. -/
def cno_stream_find (c : CnoConn) (id : Nat) : Option CnoStream :=
  c.streams.find? (fun s => s.id = id)

/-- Update the stream object with the given id in place (pointer write). -/
def CnoConn.updateStream (c : CnoConn) (id : Nat) (f : CnoStream → CnoStream) : CnoConn :=
  { c with streams := c.streams.map (fun s => if s.id = id then f s else s) }

/-- The accept mask of the stream with the given id; call sites guarantee the
stream exists (the C code reads through a valid pointer). -/
def streamAccept (c : CnoConn) (id : Nat) : CnoAccept :=
  ((cno_stream_find c id).map CnoStream.accept).getD {}

def setStreamAccept (c : CnoConn) (id : Nat) (a : CnoAccept) : CnoConn :=
  c.updateStream id (fun s => { s with accept := a })

/-- `cno_stream_free`: unlink and decrement the side counter.  On an id that
is not in the table (impossible at the C call sites, which hold a live
pointer) this is the identity. -/
def cno_stream_free (c : CnoConn) (id : Nat) : CnoConn :=
  match cno_stream_find c id with
  | none => c
  | some _ =>
    let lcl := cno_stream_is_local c id
    let c := c.setStreamCount lcl (c.streamCount lcl - 1)
    { c with streams := c.streams.eraseP (fun s => s.id = id) }

/-- `cno_stream_rst`: free the stream and fire `on_stream_end`. -/
def cno_stream_rst (c : CnoConn) (id : Nat) : CnoConn × List Ev :=
  (cno_stream_free c id, [Ev.streamEnd id])

/-- `cno_stream_rst_by_local`: record the id in the recently-reset ring,
then reset. -/
def cno_stream_rst_by_local (c : CnoConn) (id : Nat) : CnoConn × List Ev :=
  let c := { c with
    recentlyReset := c.recentlyReset.set c.recentlyResetNext id,
    recentlyResetNext := (c.recentlyResetNext + 1) % CNO_STREAM_RESET_HISTORY }
  cno_stream_rst c id

/-- `cno_stream_new`: validate parity, monotonicity and the concurrency
limit, then insert at the head of the table.  `lcl` is the `local` argument
(`true` = this side initiates).  On failure the connection is unchanged.
The `on_stream_start` callback is assumed to succeed, so the rollback branch
of the C code is not taken. -/
def cno_stream_new (c : CnoConn) (id : Nat) (lcl : Bool) :
    CnoConn × List Ev × Except CnoErr CnoStream :=
  if cno_stream_is_local c id ≠ lcl then
    (c, [], .error .invalidStream)
  else if cno_connection_is_http2 c then
    if id ≤ c.lastStream lcl then (c, [], .error .invalidStream)
    else cno_stream_new_checked c id lcl
  else if id ≠ 1 then (c, [], .error .invalidStream)
  else cno_stream_new_checked c id lcl
where
  /-- The part after the id checks: concurrency limit, allocation, insertion. -/
  cno_stream_new_checked (c : CnoConn) (id : Nat) (lcl : Bool) :
      CnoConn × List Ev × Except CnoErr CnoStream :=
    if (c.settingsOf (! lcl)).max_concurrent_streams ≤ c.streamCount lcl then
      (c, [], .error (if lcl then .wouldBlock else .transport))
    else
      let stream : CnoStream :=
        { id := id, accept := {},
          windowRecv := int32OfUInt32 c.settingsLocal.initial_window_size,
          windowSend := int32OfUInt32 c.settingsRemote.initial_window_size }
      let c := c.setLastStream lcl id
      let c := { c with streams := stream :: c.streams }
      let c := c.setStreamCount lcl (c.streamCount lcl + 1)
      (c, [Ev.streamStart id], .ok stream)

/-- The splitting loop of `cno_frame_write` for an oversized DATA, HEADERS or
PUSH_PROMISE frame.  `lastOn` is `frame->flags & carry_on_last` of the
original frame (restored on the final part); `carryES` tells whether the
carried flag is END_STREAM (DATA) or END_HEADERS (HEADERS/PUSH_PROMISE).
`fuel` bounds the recursion; the C loop consumes `limit > 0` bytes per
iteration, so `fuel = payload.length` is always enough (with `limit = 0` the
C loop would not terminate at all). -/
def splitGo (fuel limit typ : Nat) (flags : CnoFlags) (sid : Nat)
    (payload : List Nat) (lastOn carryES : Bool) : List CnoFrame :=
  match fuel with
  | 0 => []
  | fuel + 1 =>
    if payload.length ≤ limit then
      [⟨typ,
        if carryES then { flags with endStream := flags.endStream || lastOn }
        else { flags with endHeaders := flags.endHeaders || lastOn },
        sid, payload⟩]
    else
      ⟨typ, flags, sid, payload.take limit⟩ ::
        splitGo fuel limit (if typ ≠ CNO_FRAME_DATA then CNO_FRAME_CONTINUATION else typ)
          { flags with priorityF := false, endStream := false } sid
          (payload.drop limit) lastOn carryES

/-- `cno_frame_write`, as the list of frames actually put on the wire: one
frame when the payload fits in the peer's `max_frame_size`, otherwise the
split described in the function's comment.  Errors are `ASSERTION` (padded
frame too big, or a control frame too big). -/
def cno_frame_write_parts (limit : Nat) (f : CnoFrame) : Except CnoErr (List CnoFrame) :=
  if f.payload.length ≤ limit then .ok [f]
  else if f.flags.padded then .error .assertion
  else if f.typ = CNO_FRAME_DATA then
    .ok (splitGo f.payload.length limit f.typ { f.flags with endStream := false }
      f.stream f.payload f.flags.endStream true)
  else if f.typ = CNO_FRAME_HEADERS ∨ f.typ = CNO_FRAME_PUSH_PROMISE then
    .ok (splitGo f.payload.length limit f.typ { f.flags with endHeaders := false }
      f.stream f.payload f.flags.endHeaders false)
  else .error .assertion

/-- `cno_frame_write` as an event trace (each part is `on_frame_send` plus
its wire bytes). -/
def cno_frame_write (c : CnoConn) (f : CnoFrame) : Except CnoErr (List Ev) :=
  (cno_frame_write_parts c.settingsRemote.max_frame_size f).map (List.map Ev.frame)

/-- The payload of the SETTINGS frame built by `cno_frame_write_settings`:
a 6-byte entry per field whose value differs between the two vectors. -/
def settingsDelta (a b : CnoSettings) : List Nat :=
  (List.range 6).flatMap
    (fun j => if a.get j ≠ b.get j then i16 (j + 1) ++ i32 (b.get j) else [])

/-- `cno_frame_write_settings`. -/
def cno_frame_write_settings (c : CnoConn) (previous current : CnoSettings) :
    Except CnoErr (List Ev) :=
  cno_frame_write c ⟨CNO_FRAME_SETTINGS, {}, 0, settingsDelta previous current⟩

/-- `cno_frame_write_rst_stream`: send RST_STREAM, then either destroy the
stream or, if its initial HEADERS are still owed, latch NOP_HEADERS to keep
the shared HPACK state synchronised. -/
def cno_frame_write_rst_stream (c : CnoConn) (sid : Nat) (code : Nat) : COut :=
  match cno_frame_write c ⟨CNO_FRAME_RST_STREAM, {}, sid, i32 code⟩ with
  | .error e => ⟨c, [], some e⟩
  | .ok evs =>
    if (streamAccept c sid).headers then
      let a := streamAccept c sid
      ⟨setStreamAccept c sid { a.clearOutbound with nopHeaders := true }, evs, none⟩
    else
      let r := cno_stream_rst_by_local c sid
      ⟨r.1, evs ++ r.2, none⟩

/-- `cno_frame_write_goaway`: `goaway_sent` is reassigned (to
`last_stream[CNO_REMOTE]`) only when it is already non-zero; the frame's
first four payload bytes are its (updated) value. -/
def cno_goaway_conn (c : CnoConn) : CnoConn :=
  if c.goawaySent ≠ 0 then { c with goawaySent := c.lastStreamRemote } else c

def cno_frame_write_goaway (c : CnoConn) (code : Nat) : CnoConn × Except CnoErr (List Ev) :=
  (cno_goaway_conn c,
   cno_frame_write (cno_goaway_conn c)
     ⟨CNO_FRAME_GOAWAY, {}, 0, i32 (cno_goaway_conn c).goawaySent ++ i32 code⟩)

/-- `cno_frame_write_error`: GOAWAY, then a TRANSPORT error (or the GOAWAY
write's own error if that failed). -/
def cno_frame_write_error (c : CnoConn) (code : Nat) : COut :=
  match cno_frame_write_goaway c code with
  | (c2, .ok evs) => ⟨c2, evs, some .transport⟩
  | (c2, .error e) => ⟨c2, [], some e⟩

/-- `cno_frame_handle_end_stream`: clear the inbound half, fire
`on_message_end`, destroy the stream if nothing remains. -/
def cno_frame_handle_end_stream (c : CnoConn) (sid : Nat) : COut :=
  let a2 := (streamAccept c sid).clearInbound
  let c := setStreamAccept c sid a2
  if a2.any then ⟨c, [Ev.messageEnd sid], none⟩
  else
    let r := cno_stream_rst c sid
    ⟨r.1, Ev.messageEnd sid :: r.2, none⟩

/-! ### Header validation (`cno_frame_handle_message`) -/

/-- The accumulator of the backwards scan over the leading pseudo-header
block (the local variables `msg->code`, `msg->path`, `msg->method`,
`has_scheme` and the headers moved by the `save_header` swap).  `path` and
`method` are `Option`s: the C code detects duplicates through the buffer
pointer being already non-NULL. -/
structure PseudoAcc where
  code : Nat := 0
  path : Option String := none
  method : Option String := none
  hasScheme : Bool := false
  saved : List CnoHeader := []
deriving DecidableEq, Repr

/-- The `:status` digit loop: every byte must be a decimal digit. -/
def parseStatusDigits : List Char → Nat → Option Nat
  | [], code => some code
  | ch :: rest, code =>
    if ch < '0' ∨ '9' < ch then none
    else parseStatusDigits rest (code * 10 + (ch.toNat - 48))

/-- One iteration of the pseudo-header loop; `none` is `goto
invalid_message`.  Note that `:authority` is saved without a duplicate
check, unlike `:scheme`. -/
def pseudoStep (isResp trailers : Bool) (h : CnoHeader) (acc : PseudoAcc) : Option PseudoAcc :=
  if trailers then none
  else if isResp then
    if h.name = ":status" then
      if acc.code ≠ 0 then none
      else match parseStatusDigits h.value.toList acc.code with
        | none => none
        | some code => some { acc with code := code }
    else none
  else
    if h.name = ":path" then
      if acc.path.isSome then none else some { acc with path := some h.value }
    else if h.name = ":method" then
      if acc.method.isSome then none else some { acc with method := some h.value }
    else if h.name = ":authority" then
      some { acc with saved := h :: acc.saved }
    else if h.name = ":scheme" then
      if acc.hasScheme then none
      else some { acc with hasScheme := true, saved := h :: acc.saved }
    else none

/-- The pseudo-header loop itself.  It runs over the leading pseudo block
already reversed (the C loop iterates `while (it-- != msg->headers)`, i.e.
from the last pseudo-header down to the first). -/
def scanGo (isResp trailers : Bool) : List CnoHeader → PseudoAcc → Option PseudoAcc
  | [], acc => some acc
  | h :: rest, acc =>
    match pseudoStep isResp trailers h acc with
    | none => none
    | some acc2 => scanGo isResp trailers rest acc2

/-- `h.name` starts with a colon (`cno_buffer_startswith(it->name, ":")`;
stated on the first character so that it evaluates inside the kernel). -/
def isPseudo (h : CnoHeader) : Bool :=
  match h.name.toList with
  | [] => false
  | ch :: _ => ch = ':'

/-- A name containing an uppercase ASCII letter. -/
def hasUpper (s : String) : Bool := s.toList.any (fun ch => 'A' ≤ ch ∧ ch ≤ 'Z')

/-- The loop over the regular headers: a pseudo-header after a regular one
or an uppercase letter in a name invalidates the message. -/
def regularOk (hs : List CnoHeader) : Bool :=
  hs.all (fun h => !(isPseudo h) && !(hasUpper h.name))

/-- The validation phase of `cno_frame_handle_message` (everything up to and
including the "exactly one valid value" check), as a pure function: `none`
is `goto invalid_message`, `some` returns the message the effectful part
will deliver.  In the C code every path to `invalid_message` is free of
side effects (only local variables and the in-place compaction of the
header array precede the `goto`s), so the refactoring into a pure phase
preserves behaviour. -/
def validateMessage (isResp trailers : Bool) (headers : List CnoHeader) :
    Option CnoMessage :=
  let pseudos := headers.takeWhile isPseudo
  let regular := headers.drop pseudos.length
  match scanGo isResp trailers pseudos.reverse {} with
  | none => none
  | some acc =>
    if ! regularOk regular then none
    else if trailers then
      some ⟨0, "", "", acc.saved ++ regular⟩
    else if isResp then
      if acc.code = 0 then none
      else some ⟨acc.code, "", "", acc.saved ++ regular⟩
    else
      match acc.path, acc.method with
      | some path, some method =>
        if path = "" ∨ method = "" ∨ ! acc.hasScheme then none
        else some ⟨0, method, path, acc.saved ++ regular⟩
      | _, _ => none

/-- `cno_frame_handle_message`.  `sid` is the stream the enclosing
HEADERS/PUSH_PROMISE sequence runs on (for a push, the promised stream as
passed by `cno_frame_handle_push_promise`); `flags` are the frame's flags
with the carried END_STREAM merged in. -/
def cno_frame_handle_message (c : CnoConn) (sid : Nat) (flags : CnoFlags)
    (headers : List CnoHeader) : COut :=
  let isResp := c.client && c.continuedPromise = 0
  let acc := streamAccept c sid
  match validateMessage isResp acc.trailers headers with
  | none => cno_frame_write_rst_stream c sid CNO_RST_PROTOCOL_ERROR
  | some msg =>
    if acc.trailers then
      if ! flags.endStream then
        cno_frame_write_rst_stream c sid CNO_RST_PROTOCOL_ERROR
      else
        let c := setStreamAccept c sid acc.clearInbound
        let r := cno_frame_handle_end_stream c sid
        ⟨r.conn, Ev.messageTrail sid msg :: r.evs, r.err⟩
    else if c.continuedPromise ≠ 0 then
      ⟨c, [Ev.messagePush sid msg c.continuedStream], none⟩
    else
      let a2 := { acc with headers := false, trailers := true, data := true }
      let c := setStreamAccept c sid a2
      if a2.nopHeaders then
        let r := cno_stream_rst_by_local c sid
        ⟨r.1, r.2, none⟩
      else if flags.endStream then
        let r := cno_frame_handle_end_stream c sid
        ⟨r.conn, Ev.messageStart sid msg :: r.evs, r.err⟩
      else
        ⟨c, [Ev.messageStart sid msg], none⟩

/-! ### Frame handlers

The C handlers receive the result of `cno_stream_find` as a pointer; the
model re-runs the (pure) lookup inside each handler, which is equivalent
because the connection has not changed in between. -/

/-- `cno_hpack_decode` (src/cno/hpack.h): the HPACK implementation is not
part of these sources, so it is an oracle from the concatenated header
block to `none` (a fatal decode error) or the decoded header list. -/
def HpackDec := List Nat → Option (List CnoHeader)

/-- `cno_frame_handle_end_headers`: decode the concatenated block, hand it
to the message layer, then clear the continuation state.  On a decode
failure the buffer is cleared, GOAWAY(COMPRESSION_ERROR) is written (its
own result ignored) and the decoder's fatal error — modelled as TRANSPORT —
propagates; note that `continued_stream` is not cleared on this path. -/
def cno_frame_handle_end_headers (hdec : HpackDec) (c : CnoConn) (sid : Nat)
    (flags : CnoFlags) : COut :=
  match hdec c.continued with
  | none =>
    let c := { c with continued := [] }
    match cno_frame_write_goaway c CNO_RST_COMPRESSION_ERROR with
    | (c2, .ok evs) => ⟨c2, evs, some .transport⟩
    | (c2, .error _) => ⟨c2, [], some .transport⟩
  | some hs =>
    let r := cno_frame_handle_message c sid flags hs
    ⟨{ r.conn with continued := [], continuedStream := 0, continuedPromise := 0 },
      r.evs, r.err⟩

/-- `cno_frame_handle_padding`: strip the pad-length byte and the padding
from a PADDED frame, or fail with a connection error. -/
def cno_frame_handle_padding (c : CnoConn) (f : CnoFrame) : COut ⊕ CnoFrame :=
  if f.flags.padded then
    match f.payload with
    | [] => .inl (cno_frame_write_error c CNO_RST_FRAME_SIZE_ERROR)
    | b :: _ =>
      let padding := byte b + 1
      if f.payload.length < padding then
        .inl (cno_frame_write_error c CNO_RST_PROTOCOL_ERROR)
      else .inr { f with payload := (f.payload.drop 1).take (f.payload.length - padding) }
  else .inr f

/-- `cno_frame_handle_priority_prefix` (renamed: the priority spec at the
front of a HEADERS payload, or a PRIORITY frame's payload): a stream
depending on itself is a stream error when the stream exists, else a
connection error. -/
def cno_frame_handle_priority_part (c : CnoConn) (sid : Option Nat) (f : CnoFrame) : COut :=
  let target := read4 f.payload % 2 ^ 31
  if target = f.stream then
    match sid with
    | some id => cno_frame_write_rst_stream c id CNO_RST_PROTOCOL_ERROR
    | none => cno_frame_write_error c CNO_RST_PROTOCOL_ERROR
  else ⟨c, [], none⟩

/-- `cno_frame_handle_invalid_stream`: tolerate frames on streams reset
recently by this side (the id must be ≤ the highest seen for its parity and
in the reset ring); anything else is a connection error. -/
def cno_frame_handle_invalid_stream (c : CnoConn) (f : CnoFrame) : COut :=
  if f.stream ≠ 0 ∧ f.stream ≤ c.lastStream (cno_stream_is_local c f.stream) ∧
      f.stream ∈ c.recentlyReset then
    ⟨c, [], none⟩
  else cno_frame_write_error c CNO_RST_PROTOCOL_ERROR

/-- `cno_frame_handle_data`.  `length` is captured before the padding is
stripped, and is the increment of both the connection-level and the
stream-level WINDOW_UPDATE. -/
def cno_frame_handle_data (c : CnoConn) (f : CnoFrame) : COut :=
  let length := f.payload.length
  match cno_frame_handle_padding c f with
  | .inl out => out
  | .inr f =>
    match (if length ≠ 0 then
             cno_frame_write c ⟨CNO_FRAME_WINDOW_UPDATE, {}, 0, i32 length⟩
           else .ok []) with
    | .error e => ⟨c, [], some e⟩
    | .ok evs1 =>
      match cno_stream_find c f.stream with
      | none =>
        let r := cno_frame_handle_invalid_stream c f
        ⟨r.conn, evs1 ++ r.evs, r.err⟩
      | some s =>
        if ! s.accept.data then
          let r := cno_frame_write_rst_stream c f.stream CNO_RST_STREAM_CLOSED
          ⟨r.conn, evs1 ++ r.evs, r.err⟩
        else
          let evs2 := evs1 ++ [Ev.messageData f.stream f.payload]
          if f.flags.endStream then
            let r := cno_frame_handle_end_stream c f.stream
            ⟨r.conn, evs2 ++ r.evs, r.err⟩
          else if length = 0 || c.manualFlowControl then ⟨c, evs2, none⟩
          else
            match cno_frame_write c ⟨CNO_FRAME_WINDOW_UPDATE, {}, f.stream, i32 length⟩ with
            | .error e => ⟨c, evs2, some e⟩
            | .ok evs3 => ⟨c, evs2 ++ evs3, none⟩

/-- `cno_frame_handle_ping`: stream 0 and 8 payload bytes; an ACK goes to
`on_pong`, anything else is echoed with ACK set. -/
def cno_frame_handle_ping (c : CnoConn) (f : CnoFrame) : COut :=
  if f.stream ≠ 0 then cno_frame_write_error c CNO_RST_PROTOCOL_ERROR
  else if f.payload.length ≠ 8 then cno_frame_write_error c CNO_RST_FRAME_SIZE_ERROR
  else if f.flags.ack then ⟨c, [Ev.pong f.payload], none⟩
  else
    match cno_frame_write c ⟨CNO_FRAME_PING, { endStream := true }, 0, f.payload⟩ with
    | .error e => ⟨c, [], some e⟩
    | .ok evs => ⟨c, evs, none⟩

/-- `cno_frame_handle_goaway`: error code in bytes 4..8; non-zero is
TRANSPORT, zero is a clean DISCONNECT. -/
def cno_frame_handle_goaway (c : CnoConn) (f : CnoFrame) : COut :=
  if f.stream ≠ 0 then cno_frame_write_error c CNO_RST_PROTOCOL_ERROR
  else if f.payload.length < 8 then cno_frame_write_error c CNO_RST_FRAME_SIZE_ERROR
  else if read4 (f.payload.drop 4) ≠ CNO_RST_NO_ERROR then ⟨c, [], some .transport⟩
  else ⟨c, [], some .disconnect⟩

/-- `cno_frame_handle_rst_stream`. -/
def cno_frame_handle_rst_stream (c : CnoConn) (f : CnoFrame) : COut :=
  match cno_stream_find c f.stream with
  | none => cno_frame_handle_invalid_stream c f
  | some _ =>
    if f.payload.length ≠ 4 then cno_frame_write_error c CNO_RST_FRAME_SIZE_ERROR
    else
      let r := cno_stream_rst c f.stream
      ⟨r.1, r.2, none⟩

/-- `cno_frame_handle_priority`. -/
def cno_frame_handle_priority (c : CnoConn) (f : CnoFrame) : COut :=
  if f.stream = 0 then cno_frame_write_error c CNO_RST_PROTOCOL_ERROR
  else if f.payload.length ≠ 5 then cno_frame_write_error c CNO_RST_FRAME_SIZE_ERROR
  else cno_frame_handle_priority_part c ((cno_stream_find c f.stream).map CnoStream.id) f

/-- The SETTINGS parsing loop: 6-byte entries, unknown identifiers ignored,
recognised values written straight into the settings record. -/
def cno_settings_apply : CnoSettings → List Nat → CnoSettings
  | cfg, b0 :: b1 :: b2 :: b3 :: b4 :: b5 :: rest =>
    let setting := byte b0 * 256 + byte b1
    let value := read4 [b2, b3, b4, b5]
    cno_settings_apply
      (if setting ≠ 0 ∧ setting < 7 then cfg.setIdx (setting - 1) value else cfg) rest
  | cfg, _ => cfg

/-- `cno_frame_handle_settings`: the recognised values are applied to
`settings[CNO_REMOTE]` before the bounds are validated, and are not rolled
back when validation fails. -/
def cno_frame_handle_settings (c : CnoConn) (f : CnoFrame) : COut :=
  if f.stream ≠ 0 then cno_frame_write_error c CNO_RST_PROTOCOL_ERROR
  else if f.flags.ack then
    if f.payload.length ≠ 0 then cno_frame_write_error c CNO_RST_FRAME_SIZE_ERROR
    else ⟨c, [], none⟩
  else if f.payload.length % 6 ≠ 0 then cno_frame_write_error c CNO_RST_FRAME_SIZE_ERROR
  else
    let cfg := cno_settings_apply c.settingsRemote f.payload
    let c := { c with settingsRemote := cfg }
    if 1 < cfg.enable_push then cno_frame_write_error c CNO_RST_PROTOCOL_ERROR
    else if 2 ^ 31 - 1 < cfg.initial_window_size then
      cno_frame_write_error c CNO_RST_FLOW_CONTROL_ERROR
    else if cfg.max_frame_size < 16384 ∨ 16777215 < cfg.max_frame_size then
      cno_frame_write_error c CNO_RST_PROTOCOL_ERROR
    else
      let c := { c with encoderLimitUpper := cfg.header_table_size }
      match cno_frame_write c ⟨CNO_FRAME_SETTINGS, { endStream := true }, 0, []⟩ with
      | .error e => ⟨c, [], some e⟩
      | .ok evs => ⟨c, evs ++ [Ev.settingsEv], none⟩

/-- `cno_frame_handle_window_update`.  The overflow guard is
`window_send > 0x7FFFFFFF - increment`; on the connection window it is a
connection error, on a stream window a stream reset, and on success
`on_flow_increase` fires after the window is updated. -/
def cno_frame_handle_window_update (c : CnoConn) (f : CnoFrame) : COut :=
  if f.payload.length ≠ 4 then cno_frame_write_error c CNO_RST_FRAME_SIZE_ERROR
  else
    let increment := read4 f.payload
    if increment = 0 ∨ 2 ^ 31 - 1 < increment then
      cno_frame_write_error c CNO_RST_PROTOCOL_ERROR
    else if f.stream = 0 then
      if (2 ^ 31 - 1 : Int) - (increment : Int) < c.windowSend then
        cno_frame_write_error c CNO_RST_FLOW_CONTROL_ERROR
      else
        ⟨{ c with windowSend := c.windowSend + increment }, [Ev.flowIncrease 0], none⟩
    else
      match cno_stream_find c f.stream with
      | none => cno_frame_handle_invalid_stream c f
      | some s =>
        if (2 ^ 31 - 1 : Int) - (increment : Int) < s.windowSend then
          cno_frame_write_rst_stream c f.stream CNO_RST_FLOW_CONTROL_ERROR
        else
          ⟨c.updateStream f.stream
              (fun t => { t with windowSend := t.windowSend + increment }),
            [Ev.flowIncrease f.stream], none⟩

/-- The tail of `cno_frame_handle_headers`: record the continuation state
and either wait for CONTINUATION frames or run the header block. -/
def cno_frame_handle_headers_fin (hdec : HpackDec) (c : CnoConn) (sid : Nat)
    (evs0 : List Ev) (f : CnoFrame) : COut :=
  let c := { c with continuedFlags := ⟨f.flags.endStream, false, false, false⟩,
                    continuedStream := sid,
                    continued := c.continued ++ f.payload }
  if f.flags.endHeaders then
    let r := cno_frame_handle_end_headers hdec c sid f.flags
    ⟨r.conn, evs0 ++ r.evs, r.err⟩
  else ⟨c, evs0, none⟩

/-- The PRIORITY-flag prefix handling of `cno_frame_handle_headers`.  Note
that a successful stream reset inside the priority check returns 0 in C, so
processing continues. -/
def cno_frame_handle_headers_prio (hdec : HpackDec) (c : CnoConn) (sid : Nat)
    (evs0 : List Ev) (f : CnoFrame) : COut :=
  if f.flags.priorityF then
    if f.payload.length < 5 then
      let r := cno_frame_write_error c CNO_RST_FRAME_SIZE_ERROR
      ⟨r.conn, evs0 ++ r.evs, r.err⟩
    else
      let r := cno_frame_handle_priority_part c (some sid) f
      if r.err.isSome then ⟨r.conn, evs0 ++ r.evs, r.err⟩
      else cno_frame_handle_headers_fin hdec r.conn sid (evs0 ++ r.evs)
        { f with payload := f.payload.drop 5 }
  else cno_frame_handle_headers_fin hdec c sid evs0 f

/-- The trailers / accept check of `cno_frame_handle_headers` (DATA is
turned off before the trailers END_STREAM requirement is tested). -/
def cno_frame_handle_headers_go (hdec : HpackDec) (c : CnoConn) (sid : Nat)
    (evs0 : List Ev) (f : CnoFrame) : COut :=
  let acc := streamAccept c sid
  if acc.trailers then
    let c := setStreamAccept c sid { acc with data := false }
    if ! f.flags.endStream then
      let r := cno_frame_write_error c CNO_RST_PROTOCOL_ERROR
      ⟨r.conn, evs0 ++ r.evs, r.err⟩
    else cno_frame_handle_headers_prio hdec c sid evs0 f
  else if ! acc.headers then
    let r := cno_frame_write_error c CNO_RST_PROTOCOL_ERROR
    ⟨r.conn, evs0 ++ r.evs, r.err⟩
  else cno_frame_handle_headers_prio hdec c sid evs0 f

/-- `cno_frame_handle_headers`: only a server creates the stream on a fresh
id (with accept = HEADERS | WRITE_HEADERS | WRITE_PUSH). -/
def cno_frame_handle_headers (hdec : HpackDec) (c : CnoConn) (f : CnoFrame) : COut :=
  match cno_frame_handle_padding c f with
  | .inl out => out
  | .inr f =>
    match cno_stream_find c f.stream with
    | none =>
      if c.client then cno_frame_write_error c CNO_RST_PROTOCOL_ERROR
      else
        match cno_stream_new c f.stream false with
        | (c2, evs, .error e) => ⟨c2, evs, some e⟩
        | (c2, evs, .ok s) =>
          let c3 := setStreamAccept c2 s.id
            ⟨true, false, false, true, false, true, false, false⟩
          cno_frame_handle_headers_go hdec c3 f.stream evs f
    | some _ => cno_frame_handle_headers_go hdec c f.stream [] f

/-- `cno_frame_handle_push_promise`: requires local `enable_push`, a parent
stream with PUSH accept, and a 4-byte promised id; the promised stream is
created with accept = HEADERS. -/
def cno_frame_handle_push_promise (hdec : HpackDec) (c : CnoConn) (f : CnoFrame) : COut :=
  match cno_frame_handle_padding c f with
  | .inl out => out
  | .inr f =>
    if c.settingsLocal.enable_push = 0 ||
        (match cno_stream_find c f.stream with
         | some s => ! s.accept.push
         | none => true) then
      cno_frame_write_error c CNO_RST_PROTOCOL_ERROR
    else if f.payload.length < 4 then
      cno_frame_write_error c CNO_RST_FRAME_SIZE_ERROR
    else
      let promised := read4 f.payload
      match cno_stream_new c promised false with
      | (c2, evs, .error e) => ⟨c2, evs, some e⟩
      | (c2, evs, .ok _) =>
        let c3 := setStreamAccept c2 promised
          ⟨true, false, false, false, false, false, false, false⟩
        let c4 := { c3 with continuedFlags := {}, continuedStream := f.stream,
                            continuedPromise := promised,
                            continued := c3.continued ++ f.payload.drop 4 }
        if f.flags.endHeaders then
          let r := cno_frame_handle_end_headers hdec c4 promised f.flags
          ⟨r.conn, evs ++ r.evs, r.err⟩
        else ⟨c4, evs, none⟩

/-- `cno_frame_handle_continuation`: append to the block, bounded by
`(CNO_MAX_CONTINUATIONS + 1) * local max_frame_size`. -/
def cno_frame_handle_continuation (hdec : HpackDec) (c : CnoConn) (f : CnoFrame) : COut :=
  match cno_stream_find c f.stream with
  | none => cno_frame_write_error c CNO_RST_PROTOCOL_ERROR
  | some _ =>
    if c.continuedStream = 0 then cno_frame_write_error c CNO_RST_PROTOCOL_ERROR
    else
      let maxBuf := (CNO_MAX_CONTINUATIONS + 1) * c.settingsLocal.max_frame_size
      if maxBuf < f.payload.length + c.continued.length then
        cno_frame_write_error c CNO_RST_ENHANCE_YOUR_CALM
      else
        let c := { c with continued := c.continued ++ f.payload }
        let flags := f.flags.orWith c.continuedFlags
        if flags.endHeaders then cno_frame_handle_end_headers hdec c f.stream flags
        else ⟨c, [], none⟩

/-- `cno_frame_handle`: while a HEADERS/PUSH_PROMISE sequence is awaiting
CONTINUATION (`continued_stream ≠ 0`), the only acceptable frame is a
CONTINUATION on that stream — this gate runs before the unknown-type filter
and before any dispatch.  Unknown frame types are then silently ignored. -/
def cno_frame_handle (hdec : HpackDec) (c : CnoConn) (f : CnoFrame) : COut :=
  if c.continuedStream ≠ 0 ∧
      (f.typ ≠ CNO_FRAME_CONTINUATION ∨ f.stream ≠ c.continuedStream) then
    cno_frame_write_error c CNO_RST_PROTOCOL_ERROR
  else if CNO_FRAME_UNKNOWN ≤ f.typ then ⟨c, [], none⟩
  else if f.typ = CNO_FRAME_DATA then cno_frame_handle_data c f
  else if f.typ = CNO_FRAME_HEADERS then cno_frame_handle_headers hdec c f
  else if f.typ = CNO_FRAME_PRIORITY then cno_frame_handle_priority c f
  else if f.typ = CNO_FRAME_RST_STREAM then cno_frame_handle_rst_stream c f
  else if f.typ = CNO_FRAME_SETTINGS then cno_frame_handle_settings c f
  else if f.typ = CNO_FRAME_PUSH_PROMISE then cno_frame_handle_push_promise hdec c f
  else if f.typ = CNO_FRAME_PING then cno_frame_handle_ping c f
  else if f.typ = CNO_FRAME_GOAWAY then cno_frame_handle_goaway c f
  else if f.typ = CNO_FRAME_WINDOW_UPDATE then cno_frame_handle_window_update c f
  else cno_frame_handle_continuation hdec c f

/-! ### Public API surface -/

/-- `cno_connection_init`: zero state, STANDARD windows, CONSERVATIVE
assumed remote settings, INITIAL advertised local settings; the decoder's
HPACK upper limit from INITIAL, the encoder's from STANDARD. -/
def cno_connection_init (client : Bool) : CnoConn :=
  { client := client
    state := ConnState.undefined
    settingsRemote := CNO_SETTINGS_CONSERVATIVE
    settingsLocal := CNO_SETTINGS_INITIAL
    lastStreamRemote := 0
    lastStreamLocal := 0
    streamCountRemote := 0
    streamCountLocal := 0
    windowRecv := 65535
    windowSend := 65535
    continuedStream := 0
    continuedPromise := 0
    continuedFlags := {}
    continued := []
    goawaySent := 0
    streams := []
    manualFlowControl := false
    disallowH2Upgrade := false
    disallowH2PriorKnowledge := false
    writingChunked := false
    recentlyReset := List.replicate CNO_STREAM_RESET_HISTORY 0
    recentlyResetNext := 0
    http1Remaining := 0
    decoderLimitUpper := CNO_SETTINGS_INITIAL.header_table_size
    encoderLimitUpper := CNO_SETTINGS_STANDARD.header_table_size }

/-- `cno_connection_set_config`: validate `enable_push` and
`max_frame_size`; if in HTTP/2 mode but past the INIT state, emit the delta
as a SETTINGS frame (in INIT, `cno_connection_upgrade` will send the full
SETTINGS later); then store the new vector as `settings[CNO_LOCAL]` and
propagate `header_table_size` to the decoder's upper limit. -/
def cno_connection_set_config (c : CnoConn) (s : CnoSettings) : COut :=
  if s.enable_push ≠ 0 ∧ s.enable_push ≠ 1 then ⟨c, [], some .assertion⟩
  else if s.max_frame_size < 16384 ∨ 16777215 < s.max_frame_size then
    ⟨c, [], some .assertion⟩
  else
    match (if c.state ≠ ConnState.init ∧ cno_connection_is_http2 c then
             cno_frame_write_settings c c.settingsLocal s
           else .ok []) with
    | .error e => ⟨c, [], some e⟩
    | .ok evs =>
      ⟨{ c with settingsLocal := s, decoderLimitUpper := s.header_table_size }, evs, none⟩

/-- `cno_discard_remaining_payload`: clear the outbound half after a final
write; destroy the stream if nothing remains, else (server, HTTP/2) tell
the peer the rest of the request is unwanted. -/
def cno_discard_remaining_payload (c : CnoConn) (sid : Nat) : COut :=
  let a2 := (streamAccept c sid).clearOutbound
  let c := setStreamAccept c sid a2
  if ! a2.any then
    let r := cno_stream_rst_by_local c sid
    ⟨r.1, r.2, none⟩
  else if ! c.client && cno_connection_is_http2 c then
    cno_frame_write_rst_stream c sid CNO_RST_NO_ERROR
  else ⟨c, [], none⟩

/-- Bytes of `snprintf("%zX", n)` (uppercase hex digits). -/
def hexDigitByte (n : Nat) : Nat := if n < 10 then 48 + n else 55 + n

def hexBytesGo (fuel n : Nat) (acc : List Nat) : List Nat :=
  match fuel with
  | 0 => acc
  | fuel + 1 => if n = 0 then acc else hexBytesGo fuel (n / 16) (hexDigitByte (n % 16) :: acc)

def hexBytes (n : Nat) : List Nat := if n = 0 then [48] else hexBytesGo n n []

/-- One clamp step of `cno_write_data`:
`if (length > (uint32_t) window) length = window;` (the window is known to
be non-negative at this point). -/
def clampLen (w : Int) (len : Nat) : Nat := if w.toNat < len then w.toNat else len

/-- The companion `final = 0` of a clamp step that shortened the write. -/
def clampFin (w : Int) (len : Nat) (final : Bool) : Bool :=
  if w.toNat < len then false else final

/-- Result of `cno_write_data`: besides the state, trace and error, the
number of bytes actually consumed (the non-negative return value). -/
structure WOut where
  conn : CnoConn
  evs : List Ev
  err : Option CnoErr
  ret : Nat
deriving DecidableEq, Repr

/-- The common tail of `cno_write_data`:
`final && cno_discard_remaining_payload(...) ? CNO_ERROR_UP() : length`. -/
def cno_write_data_fin (c : CnoConn) (sid : Nat) (evs : List Ev) (final : Bool)
    (len : Nat) : WOut :=
  if final then
    let r := cno_discard_remaining_payload c sid
    match r.err with
    | some e => ⟨r.conn, evs ++ r.evs, some e, 0⟩
    | none => ⟨r.conn, evs ++ r.evs, none, len⟩
  else ⟨c, evs, none, len⟩

/-- `cno_write_data`.  In HTTP/2 the length is clamped first to the
connection and then to the stream send window; either clamp that shortens
the write also forces `final = 0`; both windows are decremented by the
consumed length after the DATA frame is emitted. -/
def cno_write_data (c : CnoConn) (sid : Nat) (data : List Nat) (final : Bool) : WOut :=
  if c.state = ConnState.undefined then ⟨c, [], some .disconnect, 0⟩
  else
    match cno_stream_find c sid with
    | none => ⟨c, [], some .invalidStream, 0⟩
    | some s =>
      if ! s.accept.writeData then ⟨c, [], some .invalidStream, 0⟩
      else if c.state = ConnState.unknownProtocol then
        let evs := [Ev.write data]
        if final then
          let a2 := { s.accept with writeData := false }
          let c := setStreamAccept c sid a2
          if ! a2.any then
            let r := cno_stream_rst c sid
            ⟨r.1, evs ++ r.2, some .disconnect, 0⟩
          else ⟨c, evs, some .disconnect, 0⟩
        else ⟨c, evs, none, data.length⟩
      else if ! cno_connection_is_http2 c then
        let chunked := c.writingChunked
        let evs1 :=
          if data.length ≠ 0 then
            (if chunked then [Ev.write (hexBytes data.length ++ [13, 10])] else []) ++
            [Ev.write data] ++ (if chunked then [Ev.write [13, 10]] else [])
          else []
        let evs2 := if final && chunked then [Ev.write [48, 13, 10, 13, 10]] else []
        cno_write_data_fin c sid (evs1 ++ evs2) final data.length
      else if c.windowSend < 0 ∨ s.windowSend < 0 then ⟨c, [], none, 0⟩
      else
        let length1 := clampLen c.windowSend data.length
        let final1 := clampFin c.windowSend data.length final
        let length2 := clampLen s.windowSend length1
        let final2 := clampFin s.windowSend length1 final1
        if length2 = 0 ∧ final2 = false then ⟨c, [], none, 0⟩
        else
          match cno_frame_write c ⟨CNO_FRAME_DATA,
              (if final2 then { endStream := true } else {}), sid, data.take length2⟩ with
          | .error e => ⟨c, [], some e, 0⟩
          | .ok evs =>
            let c := { c with windowSend := c.windowSend - length2 }
            let c := c.updateStream sid (fun t => { t with windowSend := t.windowSend - length2 })
            cno_write_data_fin c sid evs final2 length2

/-- `cno_write_reset`: stream 0 sends GOAWAY, a live stream gets RST_STREAM,
an idle/unknown stream is assumed already reset.  In HTTP/1 mode anything
but a clean stop rejects the connection. -/
def cno_write_reset (c : CnoConn) (sid : Nat) (code : Nat) : COut :=
  if ! cno_connection_is_http2 c then
    if sid = 0 ∧ code = CNO_RST_NO_ERROR then ⟨c, [], none⟩
    else
      match cno_stream_find c 1 with
      | some _ =>
        let r := cno_stream_rst c 1
        ⟨r.1, r.2, some .disconnect⟩
      | none => ⟨c, [], some .disconnect⟩
  else if sid = 0 then
    match cno_frame_write_goaway c code with
    | (c2, .ok evs) => ⟨c2, evs, none⟩
    | (c2, .error e) => ⟨c2, [], some e⟩
  else
    match cno_stream_find c sid with
    | some _ => cno_frame_write_rst_stream c sid code
    | none => ⟨c, [], none⟩

/-- `cno_connection_stop`. -/
def cno_connection_stop (c : CnoConn) : COut :=
  cno_write_reset c 0 CNO_RST_NO_ERROR

/-- `cno_connection_next_stream`. -/
def cno_connection_next_stream (c : CnoConn) : Nat :=
  if ! cno_connection_is_http2 c then 1
  else if c.client ∧ c.lastStreamLocal = 0 then 1 else c.lastStreamLocal + 2

/-! ### Helper lemmas -/

theorem i32_length (x : Nat) : (i32 x).length = 4 := rfl

theorem goaway_payload_drop (a b : Nat) : (i32 a ++ i32 b).drop 4 = i32 b := rfl

/-- A frame whose payload fits in the peer's `max_frame_size` goes out as a
single frame. -/
theorem cno_frame_write_single (c : CnoConn) (f : CnoFrame)
    (h : f.payload.length ≤ c.settingsRemote.max_frame_size) :
    cno_frame_write c f = .ok [Ev.frame f] := by
  unfold cno_frame_write cno_frame_write_parts
  rw [if_pos h]
  rfl

/-- `cno_frame_write_goaway` on a connection whose peer allows at least
8-byte frames: the new state differs from the old at most in `goaway_sent`,
and the single emitted frame is a GOAWAY for the (updated) `goaway_sent`
and the given code. -/
theorem cno_frame_write_goaway_spec (c : CnoConn) (code : Nat)
    (h : 8 ≤ c.settingsRemote.max_frame_size) :
    ∃ c2 : CnoConn, cno_frame_write_goaway c code =
      (c2, .ok [Ev.frame ⟨CNO_FRAME_GOAWAY, {}, 0, i32 c2.goawaySent ++ i32 code⟩]) ∧
      c2.settingsRemote = c.settingsRemote ∧
      (c.goawaySent = 0 → c2 = c) := by
  have hsr : (cno_goaway_conn c).settingsRemote = c.settingsRemote := by
    unfold cno_goaway_conn
    by_cases hg : c.goawaySent ≠ 0
    · rw [if_pos hg]
    · rw [if_neg hg]
  have hsame : c.goawaySent = 0 → cno_goaway_conn c = c := by
    intro h0
    unfold cno_goaway_conn
    simp [h0]
  refine ⟨cno_goaway_conn c, ?_, hsr, hsame⟩
  unfold cno_frame_write_goaway
  rw [cno_frame_write_single _ _ (by simpa [hsr] using h)]

/-- `cno_frame_write_error` emits exactly one GOAWAY frame carrying the
code and returns TRANSPORT. -/
theorem cno_frame_write_error_spec (c : CnoConn) (code : Nat)
    (h : 8 ≤ c.settingsRemote.max_frame_size) :
    (cno_frame_write_error c code).err = some CnoErr.transport ∧
    ∃ g : CnoFrame, (cno_frame_write_error c code).evs = [Ev.frame g] ∧
      g.typ = CNO_FRAME_GOAWAY ∧ g.stream = 0 ∧
      g.payload.drop 4 = i32 code := by
  obtain ⟨c2, heq, -, -⟩ := cno_frame_write_goaway_spec c code h
  unfold cno_frame_write_error
  rw [heq]
  exact ⟨rfl, _, rfl, rfl, rfl, goaway_payload_drop _ _⟩

/-- Claim C3: whenever `continued_stream` is non-zero (a HEADERS or
PUSH_PROMISE sequence is awaiting CONTINUATION), handling any frame that is
not a CONTINUATION on that same stream — any frame type, including unknown
ones, and any stream id — emits GOAWAY(PROTOCOL_ERROR) and returns a fatal
TRANSPORT error. -/
theorem c3_continuation_gate (hdec : HpackDec) (c : CnoConn) (f : CnoFrame)
    (hcont : c.continuedStream ≠ 0)
    (hnot : f.typ ≠ CNO_FRAME_CONTINUATION ∨ f.stream ≠ c.continuedStream)
    (hlimit : 8 ≤ c.settingsRemote.max_frame_size) :
    (cno_frame_handle hdec c f).err = some CnoErr.transport ∧
    ∃ g : CnoFrame, (cno_frame_handle hdec c f).evs = [Ev.frame g] ∧
      g.typ = CNO_FRAME_GOAWAY ∧ g.stream = 0 ∧
      g.payload.drop 4 = i32 CNO_RST_PROTOCOL_ERROR := by
  have hgate : (cno_frame_handle hdec c f) = cno_frame_write_error c CNO_RST_PROTOCOL_ERROR := by
    unfold cno_frame_handle
    rw [if_pos ⟨hcont, hnot⟩]
  rw [hgate]
  exact cno_frame_write_error_spec c CNO_RST_PROTOCOL_ERROR hlimit

/-- A concrete connection mid-CONTINUATION, for the C3 witness. -/
def fixtureC3 : CnoConn :=
  { cno_connection_init false with
    state := ConnState.ready
    continuedStream := 1 }

/-- Witness for `c3_continuation_gate` at a concrete connection and frame
(a PING on stream 0 while stream 1 awaits CONTINUATION). -/
theorem c3_continuation_gate_witness :
    (fixtureC3.continuedStream ≠ 0 ∧
      ((6 : Nat) ≠ CNO_FRAME_CONTINUATION ∨ (0 : Nat) ≠ fixtureC3.continuedStream) ∧
      8 ≤ fixtureC3.settingsRemote.max_frame_size) ∧
    ((cno_frame_handle (fun _ => none) fixtureC3 ⟨6, {}, 0, []⟩).err =
        some CnoErr.transport ∧
      ∃ g : CnoFrame, (cno_frame_handle (fun _ => none) fixtureC3
          ⟨6, {}, 0, []⟩).evs = [Ev.frame g] ∧
        g.typ = CNO_FRAME_GOAWAY ∧ g.stream = 0 ∧
        g.payload.drop 4 = i32 CNO_RST_PROTOCOL_ERROR) :=
  ⟨⟨by decide, by decide, by decide⟩,
    c3_continuation_gate (fun _ => none) fixtureC3 ⟨6, {}, 0, []⟩
      (by decide) (by decide) (by decide)⟩

/-! ### Trace and state preservation framework

`goawayZeroB` says every GOAWAY frame in a trace carries last-stream-id 0;
`StepOk` packages it with the facts that `goaway_sent` stays zero and the
`last_stream` counters never decrease. -/

def goawayZeroB (evs : List Ev) : Bool :=
  evs.all fun e =>
    match e with
    | Ev.frame g => g.typ != CNO_FRAME_GOAWAY || g.payload.take 4 == i32 0
    | _ => true

theorem goawayZeroB_nil : goawayZeroB [] = true := rfl

theorem goawayZeroB_append {a b : List Ev} (ha : goawayZeroB a = true)
    (hb : goawayZeroB b = true) : goawayZeroB (a ++ b) = true := by
  unfold goawayZeroB at *
  rw [List.all_append, ha, hb]
  rfl

theorem goawayZeroB_frames {parts : List CnoFrame}
    (h : ∀ g ∈ parts, g.typ ≠ CNO_FRAME_GOAWAY) :
    goawayZeroB (parts.map Ev.frame) = true := by
  unfold goawayZeroB
  rw [List.all_eq_true]
  intro e he
  obtain ⟨g, hg, rfl⟩ := List.mem_map.mp he
  simp [h g hg]

/-- The one connection field the GOAWAY invariant tracks. -/
def SameCore (c c2 : CnoConn) : Prop :=
  c2.goawaySent = c.goawaySent

theorem sameCore_self (c : CnoConn) : SameCore c c := rfl

theorem sameCore_trans {a b c : CnoConn} (h1 : SameCore a b) (h2 : SameCore b c) :
    SameCore a c :=
  h2.trans h1

def StepOk (c c2 : CnoConn) (evs : List Ev) : Prop :=
  c.goawaySent = 0 → c2.goawaySent = 0 ∧ goawayZeroB evs = true

abbrev COutOk (c : CnoConn) (r : COut) : Prop := StepOk c r.conn r.evs

theorem stepOk_of_same {c c2 : CnoConn} {evs : List Ev} (h : SameCore c c2)
    (hz : goawayZeroB evs = true) : StepOk c c2 evs :=
  fun h0 => ⟨h.trans h0, hz⟩

theorem stepOk_refl {c : CnoConn} : StepOk c c [] :=
  stepOk_of_same (sameCore_self c) goawayZeroB_nil

theorem stepOk_trans {c c2 c3 : CnoConn} {evs evs2 : List Ev}
    (h1 : StepOk c c2 evs) (h2 : StepOk c2 c3 evs2) : StepOk c c3 (evs ++ evs2) := by
  intro h0
  obtain ⟨hg2, hz1⟩ := h1 h0
  obtain ⟨hg3, hz2⟩ := h2 hg2
  exact ⟨hg3, goawayZeroB_append hz1 hz2⟩

theorem stepOk_frontEvs {c c2 : CnoConn} {evs evs2 : List Ev}
    (hz : goawayZeroB evs = true) (h : StepOk c c2 evs2) :
    StepOk c c2 (evs ++ evs2) := by
  intro h0
  obtain ⟨hg, hz2⟩ := h h0
  exact ⟨hg, goawayZeroB_append hz hz2⟩

theorem sameCore_setStreamCount (c : CnoConn) (lcl : Bool) (v : Nat) :
    SameCore c (c.setStreamCount lcl v) := by
  unfold CnoConn.setStreamCount
  split <;> rfl

theorem sameCore_setLastStream (c : CnoConn) (lcl : Bool) (v : Nat) :
    SameCore c (c.setLastStream lcl v) := by
  unfold CnoConn.setLastStream
  split <;> rfl

theorem sameCore_updateStream (c : CnoConn) (id : Nat) (f : CnoStream → CnoStream) :
    SameCore c (c.updateStream id f) := rfl

theorem sameCore_setStreamAccept (c : CnoConn) (id : Nat) (a : CnoAccept) :
    SameCore c (setStreamAccept c id a) := rfl

theorem sameCore_stream_free (c : CnoConn) (id : Nat) :
    SameCore c (cno_stream_free c id) := by
  unfold cno_stream_free
  cases cno_stream_find c id with
  | none => exact sameCore_self c
  | some s =>
    exact sameCore_trans (sameCore_setStreamCount c _ _) rfl

theorem stepOk_stream_rst (c : CnoConn) (id : Nat) :
    StepOk c (cno_stream_rst c id).1 (cno_stream_rst c id).2 :=
  stepOk_of_same (sameCore_stream_free c id) (by simp [cno_stream_rst, goawayZeroB])

theorem stepOk_stream_rst_by_local (c : CnoConn) (id : Nat) :
    StepOk c (cno_stream_rst_by_local c id).1 (cno_stream_rst_by_local c id).2 := by
  unfold cno_stream_rst_by_local
  exact stepOk_of_same
    (sameCore_trans rfl (sameCore_stream_free _ id))
    (by simp [cno_stream_rst, goawayZeroB])

theorem splitGo_typ {limit sid : Nat} {lastOn carryES : Bool} :
    ∀ {fuel typ : Nat} {flags : CnoFlags} {payload : List Nat},
    typ ≠ CNO_FRAME_GOAWAY →
    ∀ g ∈ splitGo fuel limit typ flags sid payload lastOn carryES,
      g.typ ≠ CNO_FRAME_GOAWAY := by
  intro fuel
  induction fuel with
  | zero => intro typ flags payload h7 g hg; simp [splitGo] at hg
  | succ n ih =>
    intro typ flags payload h7 g hg
    unfold splitGo at hg
    by_cases hle : payload.length ≤ limit
    · rw [if_pos hle] at hg
      have : g = ⟨typ,
          if carryES then { flags with endStream := flags.endStream || lastOn }
          else { flags with endHeaders := flags.endHeaders || lastOn },
          sid, payload⟩ := by simpa using hg
      subst this
      exact h7
    · rw [if_neg hle] at hg
      rcases List.mem_cons.mp hg with h | h
      · subst h; exact h7
      · refine ih ?_ g h
        by_cases hd : typ ≠ CNO_FRAME_DATA
        · rw [if_pos hd]; decide
        · rw [if_neg hd]; exact h7

/-- Every frame emitted by `cno_frame_write` that is a GOAWAY is the input
frame itself (GOAWAYs are never split), so if the input satisfies the
zero-id condition, the trace does. -/
theorem frame_write_zero {c : CnoConn} {f : CnoFrame} {evs : List Ev}
    (h7 : f.typ = CNO_FRAME_GOAWAY → f.payload.take 4 = i32 0)
    (hw : cno_frame_write c f = .ok evs) : goawayZeroB evs = true := by
  unfold cno_frame_write cno_frame_write_parts at hw
  by_cases hle : f.payload.length ≤ c.settingsRemote.max_frame_size
  · rw [if_pos hle] at hw
    have hevs : evs = [Ev.frame f] := by
      simpa [Except.map] using hw.symm
    subst hevs
    by_cases hg : f.typ = CNO_FRAME_GOAWAY
    · simp [goawayZeroB, hg, h7 hg]
    · simp [goawayZeroB, hg]
  · rw [if_neg hle] at hw
    by_cases hp : f.flags.padded
    · simp [hp, Except.map] at hw
    · rw [if_neg (by simpa using hp)] at hw
      by_cases hd : f.typ = CNO_FRAME_DATA
      · rw [if_pos hd] at hw
        have hevs : evs = (splitGo f.payload.length c.settingsRemote.max_frame_size f.typ
            { f.flags with endStream := false } f.stream f.payload f.flags.endStream
            true).map Ev.frame := by
          simpa [Except.map] using hw.symm
        subst hevs
        exact goawayZeroB_frames (splitGo_typ (by rw [hd]; decide))
      · rw [if_neg hd] at hw
        by_cases hh : f.typ = CNO_FRAME_HEADERS ∨ f.typ = CNO_FRAME_PUSH_PROMISE
        · rw [if_pos hh] at hw
          have hevs : evs = (splitGo f.payload.length c.settingsRemote.max_frame_size f.typ
              { f.flags with endHeaders := false } f.stream f.payload f.flags.endHeaders
              false).map Ev.frame := by
            simpa [Except.map] using hw.symm
          subst hevs
          refine goawayZeroB_frames (splitGo_typ ?_)
          rcases hh with h | h <;> rw [h] <;> decide
        · rw [if_neg hh] at hw
          simp [Except.map] at hw

theorem stepOk_write_rst_stream (c : CnoConn) (sid code : Nat) :
    COutOk c (cno_frame_write_rst_stream c sid code) := by
  unfold cno_frame_write_rst_stream
  cases hw : cno_frame_write c ⟨CNO_FRAME_RST_STREAM, {}, sid, i32 code⟩ with
  | error e => exact stepOk_refl
  | ok evs =>
    have hz : goawayZeroB evs = true := frame_write_zero (by intro h; cases h) hw
    by_cases hacc : (streamAccept c sid).headers
    · simp only [hacc, if_true]
      exact stepOk_of_same (sameCore_setStreamAccept c sid _) hz
    · simp only [hacc, if_false]
      exact stepOk_frontEvs hz (stepOk_stream_rst_by_local c sid)

theorem stepOk_write_goaway (c : CnoConn) (code : Nat) {evs : List Ev}
    (hw : (cno_frame_write_goaway c code).2 = .ok evs) :
    StepOk c (cno_frame_write_goaway c code).1 evs := by
  unfold cno_frame_write_goaway at *
  intro h0
  have hcc : cno_goaway_conn c = c := by
    unfold cno_goaway_conn
    simp [h0]
  refine ⟨by rw [hcc]; exact h0, ?_⟩
  refine frame_write_zero (fun _ => ?_) hw
  rw [hcc, h0]
  rfl

theorem stepOk_write_error (c : CnoConn) (code : Nat) :
    COutOk c (cno_frame_write_error c code) := by
  unfold cno_frame_write_error
  cases hw : cno_frame_write_goaway c code with
  | mk c2 r =>
    cases r with
    | ok evs =>
      have := @stepOk_write_goaway c code evs (by rw [hw])
      rw [hw] at this
      exact this
    | error e =>
      have hc2 : c2 = cno_goaway_conn c := by
        have := congrArg Prod.fst hw
        simpa [cno_frame_write_goaway] using this.symm
      subst hc2
      intro h0
      have hcc : cno_goaway_conn c = c := by
        unfold cno_goaway_conn
        simp [h0]
      exact ⟨by rw [hcc]; exact h0, goawayZeroB_nil⟩

theorem stepOk_trans_nil {c c2 c3 : CnoConn} {evs2 : List Ev}
    (h1 : StepOk c c2 []) (h2 : StepOk c2 c3 evs2) : StepOk c c3 evs2 := by
  intro h0
  obtain ⟨hg2, -⟩ := h1 h0
  exact h2 hg2

theorem stepOk_consEv {c c2 : CnoConn} {e : Ev} {evs : List Ev}
    (he : goawayZeroB [e] = true) (h : StepOk c c2 evs) : StepOk c c2 (e :: evs) := by
  intro h0
  obtain ⟨hg, hz⟩ := h h0
  exact ⟨hg, goawayZeroB_append he hz⟩

theorem stepOk_tail_same {c c2 c3 : CnoConn} {evs : List Ev}
    (h : StepOk c c2 evs) (h2 : SameCore c2 c3) : StepOk c c3 evs := by
  intro h0
  obtain ⟨hg, hz⟩ := h h0
  exact ⟨h2.trans hg, hz⟩

theorem stepOk_stream_new (c : CnoConn) (id : Nat) (lcl : Bool) :
    StepOk c (cno_stream_new c id lcl).1 (cno_stream_new c id lcl).2.1 := by
  have hchk : StepOk c (cno_stream_new.cno_stream_new_checked c id lcl).1
      (cno_stream_new.cno_stream_new_checked c id lcl).2.1 := by
    unfold cno_stream_new.cno_stream_new_checked
    split
    · exact stepOk_refl
    · exact stepOk_of_same
        (sameCore_trans (sameCore_trans (sameCore_setLastStream c lcl id) rfl)
          (sameCore_setStreamCount _ lcl _))
        (by simp [goawayZeroB])
  unfold cno_stream_new
  split
  · exact stepOk_refl
  · split
    · split
      · exact stepOk_refl
      · exact hchk
    · split
      · exact stepOk_refl
      · exact hchk

theorem stepOk_end_stream (c : CnoConn) (sid : Nat) :
    COutOk c (cno_frame_handle_end_stream c sid) := by
  unfold cno_frame_handle_end_stream COutOk
  dsimp only
  split
  · exact stepOk_of_same (sameCore_setStreamAccept c sid _) (by simp [goawayZeroB])
  · exact stepOk_consEv (by simp [goawayZeroB])
      (stepOk_trans_nil
        (stepOk_of_same (sameCore_setStreamAccept c sid _) goawayZeroB_nil)
        (stepOk_stream_rst _ sid))

theorem stepOk_handle_message (c : CnoConn) (sid : Nat) (flags : CnoFlags)
    (headers : List CnoHeader) :
    COutOk c (cno_frame_handle_message c sid flags headers) := by
  unfold cno_frame_handle_message COutOk
  dsimp only
  split
  · exact stepOk_write_rst_stream c sid CNO_RST_PROTOCOL_ERROR
  · split
    · split
      · exact stepOk_write_rst_stream c sid CNO_RST_PROTOCOL_ERROR
      · exact stepOk_consEv (by simp [goawayZeroB])
          (stepOk_trans_nil
            (stepOk_of_same (sameCore_setStreamAccept c sid _) goawayZeroB_nil)
            (stepOk_end_stream _ sid))
    · split
      · exact stepOk_of_same (sameCore_self c) (by simp [goawayZeroB])
      · split
        · exact stepOk_trans_nil
            (stepOk_of_same (sameCore_setStreamAccept c sid _) goawayZeroB_nil)
            (stepOk_stream_rst_by_local _ sid)
        · split
          · exact stepOk_consEv (by simp [goawayZeroB])
              (stepOk_trans_nil
                (stepOk_of_same (sameCore_setStreamAccept c sid _) goawayZeroB_nil)
                (stepOk_end_stream _ sid))
          · exact stepOk_of_same (sameCore_setStreamAccept c sid _)
              (by simp [goawayZeroB])

theorem stepOk_end_headers (hdec : HpackDec) (c : CnoConn) (sid : Nat)
    (flags : CnoFlags) :
    COutOk c (cno_frame_handle_end_headers hdec c sid flags) := by
  unfold cno_frame_handle_end_headers COutOk
  dsimp only
  split
  · split
    case _ c2 evs heq =>
      refine stepOk_trans_nil (stepOk_of_same rfl goawayZeroB_nil) ?_
      have := @stepOk_write_goaway { c with continued := [] }
        CNO_RST_COMPRESSION_ERROR evs (by rw [heq])
      rw [heq] at this
      exact this
    case _ c2 e heq =>
      refine stepOk_trans_nil (stepOk_of_same rfl goawayZeroB_nil) ?_
      intro h0
      have hc2 : c2 = cno_goaway_conn { c with continued := [] } := by
        have := congrArg Prod.fst heq
        simpa [cno_frame_write_goaway] using this.symm
      subst hc2
      have hcc : cno_goaway_conn { c with continued := [] } =
          { c with continued := [] } := by
        unfold cno_goaway_conn
        simp [h0]
      rw [hcc]
      exact ⟨h0, goawayZeroB_nil⟩
  · exact stepOk_tail_same (stepOk_handle_message c sid flags _) rfl

theorem stepOk_padding {c : CnoConn} {f : CnoFrame} {out : COut}
    (h : cno_frame_handle_padding c f = .inl out) : COutOk c out := by
  unfold cno_frame_handle_padding at h
  by_cases hp : f.flags.padded
  · rw [if_pos hp] at h
    match hpay : f.payload with
    | [] =>
      rw [hpay] at h
      have : out = cno_frame_write_error c CNO_RST_FRAME_SIZE_ERROR := by
        simpa using h.symm
      rw [this]
      exact stepOk_write_error c _
    | b :: rest =>
      rw [hpay] at h
      dsimp only at h
      split at h
      · have : out = cno_frame_write_error c CNO_RST_PROTOCOL_ERROR := by
          simpa using h.symm
        rw [this]
        exact stepOk_write_error c _
      · cases h
  · rw [if_neg hp] at h
    cases h

theorem stepOk_priority_part (c : CnoConn) (sid : Option Nat) (f : CnoFrame) :
    COutOk c (cno_frame_handle_priority_part c sid f) := by
  unfold cno_frame_handle_priority_part COutOk
  dsimp only
  split
  · split
    · exact stepOk_write_rst_stream c _ _
    · exact stepOk_write_error c _
  · exact stepOk_refl

theorem stepOk_invalid_stream (c : CnoConn) (f : CnoFrame) :
    COutOk c (cno_frame_handle_invalid_stream c f) := by
  unfold cno_frame_handle_invalid_stream COutOk
  split
  · exact stepOk_refl
  · exact stepOk_write_error c _

theorem stepOk_handle_data (c : CnoConn) (f : CnoFrame) :
    COutOk c (cno_frame_handle_data c f) := by
  unfold cno_frame_handle_data COutOk
  dsimp only
  split
  case _ out hout => exact stepOk_padding hout
  case _ f2 hpad =>
    split
    case _ e heq => exact stepOk_refl
    case _ evs1 heq =>
      have hz1 : goawayZeroB evs1 = true := by
        by_cases hl : f.payload.length ≠ 0
        · rw [if_pos hl] at heq
          exact frame_write_zero (by intro h; cases h) heq
        · rw [if_neg hl] at heq
          cases heq
          exact goawayZeroB_nil
      split
      · exact stepOk_frontEvs hz1 (stepOk_invalid_stream c f2)
      · split
        · exact stepOk_frontEvs hz1 (stepOk_write_rst_stream c _ _)
        · split
          · exact stepOk_frontEvs
              (goawayZeroB_append hz1 (by simp [goawayZeroB]))
              (stepOk_end_stream c f2.stream)
          · split
            · exact stepOk_of_same (sameCore_self c)
                (goawayZeroB_append hz1 (by simp [goawayZeroB]))
            · split
              case _ e heq2 =>
                exact stepOk_of_same (sameCore_self c)
                  (goawayZeroB_append hz1 (by simp [goawayZeroB]))
              case _ evs3 heq2 =>
                refine stepOk_of_same (sameCore_self c)
                  (goawayZeroB_append
                    (goawayZeroB_append hz1 (by simp [goawayZeroB])) ?_)
                exact frame_write_zero (by intro h; cases h) heq2

theorem stepOk_handle_ping (c : CnoConn) (f : CnoFrame) :
    COutOk c (cno_frame_handle_ping c f) := by
  unfold cno_frame_handle_ping COutOk
  split
  · exact stepOk_write_error c _
  · split
    · exact stepOk_write_error c _
    · split
      · exact stepOk_of_same (sameCore_self c) (by simp [goawayZeroB])
      · split
        · exact stepOk_refl
        case _ evs heq =>
          exact stepOk_of_same (sameCore_self c)
            (frame_write_zero (by intro h; cases h) heq)

theorem stepOk_handle_goaway (c : CnoConn) (f : CnoFrame) :
    COutOk c (cno_frame_handle_goaway c f) := by
  unfold cno_frame_handle_goaway COutOk
  split
  · exact stepOk_write_error c _
  · split
    · exact stepOk_write_error c _
    · split
      · exact stepOk_refl
      · exact stepOk_refl

theorem stepOk_handle_rst_stream (c : CnoConn) (f : CnoFrame) :
    COutOk c (cno_frame_handle_rst_stream c f) := by
  unfold cno_frame_handle_rst_stream COutOk
  split
  · exact stepOk_invalid_stream c f
  · split
    · exact stepOk_write_error c _
    · exact stepOk_stream_rst c f.stream

theorem stepOk_handle_priority (c : CnoConn) (f : CnoFrame) :
    COutOk c (cno_frame_handle_priority c f) := by
  unfold cno_frame_handle_priority COutOk
  split
  · exact stepOk_write_error c _
  · split
    · exact stepOk_write_error c _
    · exact stepOk_priority_part c _ f

theorem stepOk_handle_settings (c : CnoConn) (f : CnoFrame) :
    COutOk c (cno_frame_handle_settings c f) := by
  unfold cno_frame_handle_settings COutOk
  dsimp only
  split
  · exact stepOk_write_error c _
  · split
    · split
      · exact stepOk_write_error c _
      · exact stepOk_refl
    · split
      · exact stepOk_write_error c _
      · split
        · refine stepOk_trans_nil ?_ (stepOk_write_error _ _)
          exact stepOk_of_same rfl goawayZeroB_nil
        · split
          · refine stepOk_trans_nil ?_ (stepOk_write_error _ _)
            exact stepOk_of_same rfl goawayZeroB_nil
          · split
            · refine stepOk_trans_nil ?_ (stepOk_write_error _ _)
              exact stepOk_of_same rfl goawayZeroB_nil
            · split
              case _ e heq => exact stepOk_of_same rfl goawayZeroB_nil
              case _ evs heq =>
                refine stepOk_of_same rfl
                  (goawayZeroB_append
                    (frame_write_zero (by intro h; cases h) heq)
                    (by simp [goawayZeroB]))

theorem stepOk_handle_window_update (c : CnoConn) (f : CnoFrame) :
    COutOk c (cno_frame_handle_window_update c f) := by
  unfold cno_frame_handle_window_update COutOk
  dsimp only
  split
  · exact stepOk_write_error c _
  · split
    · exact stepOk_write_error c _
    · split
      · split
        · exact stepOk_write_error c _
        · exact stepOk_of_same rfl (by simp [goawayZeroB])
      · split
        · exact stepOk_invalid_stream c f
        · split
          · exact stepOk_write_rst_stream c _ _
          · exact stepOk_of_same (sameCore_updateStream c _ _)
              (by simp [goawayZeroB])

theorem stepOk_headers_fin (hdec : HpackDec) (c : CnoConn) (sid : Nat)
    (evs0 : List Ev) (f : CnoFrame) (hz0 : goawayZeroB evs0 = true) :
    COutOk c (cno_frame_handle_headers_fin hdec c sid evs0 f) := by
  unfold cno_frame_handle_headers_fin
  dsimp only
  split
  · refine stepOk_frontEvs hz0 ?_
    refine stepOk_trans_nil ?_ (stepOk_end_headers hdec _ sid f.flags)
    exact stepOk_of_same rfl goawayZeroB_nil
  · exact stepOk_of_same rfl hz0

theorem stepOk_headers_prio (hdec : HpackDec) (c : CnoConn) (sid : Nat)
    (evs0 : List Ev) (f : CnoFrame) (hz0 : goawayZeroB evs0 = true) :
    COutOk c (cno_frame_handle_headers_prio hdec c sid evs0 f) := by
  unfold cno_frame_handle_headers_prio
  dsimp only
  split
  · split
    · exact stepOk_frontEvs hz0 (stepOk_write_error c _)
    · split
      · exact stepOk_frontEvs hz0 (stepOk_priority_part c (some sid) f)
      · intro h0
        obtain ⟨hg, hz⟩ := stepOk_priority_part c (some sid) f h0
        exact stepOk_trans_nil (fun h0b => ⟨hg, goawayZeroB_nil⟩)
          (stepOk_headers_fin hdec _ sid _ _ (goawayZeroB_append hz0 hz)) h0
  · exact stepOk_headers_fin hdec c sid evs0 f hz0

theorem stepOk_headers_go (hdec : HpackDec) (c : CnoConn) (sid : Nat)
    (evs0 : List Ev) (f : CnoFrame) (hz0 : goawayZeroB evs0 = true) :
    COutOk c (cno_frame_handle_headers_go hdec c sid evs0 f) := by
  unfold cno_frame_handle_headers_go
  dsimp only
  split
  · split
    · refine stepOk_frontEvs hz0 ?_
      refine stepOk_trans_nil ?_ (stepOk_write_error _ _)
      exact stepOk_of_same rfl goawayZeroB_nil
    · refine stepOk_trans_nil ?_ (stepOk_headers_prio hdec _ sid evs0 f hz0)
      exact stepOk_of_same rfl goawayZeroB_nil
  · split
    · exact stepOk_frontEvs hz0 (stepOk_write_error c _)
    · exact stepOk_headers_prio hdec c sid evs0 f hz0

theorem stepOk_handle_headers (hdec : HpackDec) (c : CnoConn) (f : CnoFrame) :
    COutOk c (cno_frame_handle_headers hdec c f) := by
  unfold cno_frame_handle_headers
  dsimp only
  split
  case _ out hout => exact stepOk_padding hout
  case _ f2 hpad =>
    split
    · split
      · exact stepOk_write_error c _
      · split
        case _ c2 evs e heq =>
          intro h0
          have := stepOk_stream_new c f2.stream false
          rw [heq] at this
          exact this h0
        case _ c2 evs s heq =>
          intro h0
          have hnew := stepOk_stream_new c f2.stream false
          rw [heq] at hnew
          obtain ⟨hg2, hz2⟩ := hnew h0
          refine stepOk_trans_nil (fun _ => ⟨hg2, goawayZeroB_nil⟩) ?_ h0
          refine stepOk_trans_nil ?_ (stepOk_headers_go hdec _ f2.stream evs f2 hz2)
          exact stepOk_of_same rfl goawayZeroB_nil
    · exact stepOk_headers_go hdec c f2.stream [] f2 goawayZeroB_nil

theorem stepOk_handle_push_promise (hdec : HpackDec) (c : CnoConn) (f : CnoFrame) :
    COutOk c (cno_frame_handle_push_promise hdec c f) := by
  unfold cno_frame_handle_push_promise
  dsimp only
  split
  case _ out hout => exact stepOk_padding hout
  case _ f2 hpad =>
    split
    · exact stepOk_write_error c _
    · split
      · exact stepOk_write_error c _
      · split
        case _ c2 evs e heq =>
          intro h0
          have := stepOk_stream_new c (read4 f2.payload) false
          rw [heq] at this
          exact this h0
        case _ c2 evs s heq =>
          intro h0
          have hnew := stepOk_stream_new c (read4 f2.payload) false
          rw [heq] at hnew
          obtain ⟨hg2, hz2⟩ := hnew h0
          refine stepOk_trans_nil (fun _ => ⟨hg2, goawayZeroB_nil⟩) ?_ h0
          split
          · refine stepOk_frontEvs hz2 ?_
            refine stepOk_trans_nil ?_ (stepOk_end_headers hdec _ _ f2.flags)
            exact stepOk_of_same rfl goawayZeroB_nil
          · exact stepOk_of_same rfl hz2

theorem stepOk_handle_continuation (hdec : HpackDec) (c : CnoConn) (f : CnoFrame) :
    COutOk c (cno_frame_handle_continuation hdec c f) := by
  unfold cno_frame_handle_continuation
  dsimp only
  split
  · exact stepOk_write_error c _
  · split
    · exact stepOk_write_error c _
    · split
      · exact stepOk_write_error c _
      · split
        · refine stepOk_trans_nil ?_ (stepOk_end_headers hdec _ f.stream _)
          exact stepOk_of_same rfl goawayZeroB_nil
        · exact stepOk_of_same rfl goawayZeroB_nil

set_option maxHeartbeats 1000000 in
/-- Any frame handled through `cno_frame_handle` keeps `goaway_sent` at zero
and only emits GOAWAY frames with last-stream-id 0. -/
theorem stepOk_frame_handle (hdec : HpackDec) (c : CnoConn) (f : CnoFrame) :
    COutOk c (cno_frame_handle hdec c f) := by
  unfold cno_frame_handle
  split
  · exact stepOk_write_error c _
  · split
    · exact stepOk_refl
    · split
      · exact stepOk_handle_data c f
      · split
        · exact stepOk_handle_headers hdec c f
        · split
          · exact stepOk_handle_priority c f
          · split
            · exact stepOk_handle_rst_stream c f
            · split
              · exact stepOk_handle_settings c f
              · split
                · exact stepOk_handle_push_promise hdec c f
                · split
                  · exact stepOk_handle_ping c f
                  · split
                    · exact stepOk_handle_goaway c f
                    · split
                      · exact stepOk_handle_window_update c f
                      · exact stepOk_handle_continuation hdec c f

theorem stepOk_discard (c : CnoConn) (sid : Nat) :
    COutOk c (cno_discard_remaining_payload c sid) := by
  unfold cno_discard_remaining_payload
  dsimp only
  split
  · refine stepOk_trans_nil ?_ (stepOk_stream_rst_by_local _ sid)
    exact stepOk_of_same rfl goawayZeroB_nil
  · split
    · refine stepOk_trans_nil ?_ (stepOk_write_rst_stream _ sid _)
      exact stepOk_of_same rfl goawayZeroB_nil
    · exact stepOk_of_same rfl goawayZeroB_nil

theorem stepOk_write_data_fin (c : CnoConn) (sid : Nat) (evs : List Ev)
    (final : Bool) (len : Nat) (hz : goawayZeroB evs = true) :
    StepOk c (cno_write_data_fin c sid evs final len).conn
      (cno_write_data_fin c sid evs final len).evs := by
  unfold cno_write_data_fin
  dsimp only
  split
  · split
    · exact stepOk_frontEvs hz (stepOk_discard c sid)
    · exact stepOk_frontEvs hz (stepOk_discard c sid)
  · exact stepOk_of_same rfl hz

set_option maxHeartbeats 1000000 in
/-- `cno_write_data` never emits a GOAWAY frame and keeps `goaway_sent`
zero. -/
theorem stepOk_write_data (c : CnoConn) (sid : Nat) (data : List Nat) (final : Bool) :
    StepOk c (cno_write_data c sid data final).conn
      (cno_write_data c sid data final).evs := by
  unfold cno_write_data
  dsimp only
  split
  · exact stepOk_refl
  · split
    · exact stepOk_refl
    · split
      · exact stepOk_refl
      · split
        · split
          · split
            · refine stepOk_frontEvs (by simp [goawayZeroB]) ?_
              refine stepOk_trans_nil ?_ (stepOk_stream_rst _ sid)
              exact stepOk_of_same rfl goawayZeroB_nil
            · exact stepOk_of_same rfl (by simp [goawayZeroB])
          · exact stepOk_of_same rfl (by simp [goawayZeroB])
        · split
          · refine stepOk_write_data_fin c sid _ final data.length ?_
            refine goawayZeroB_append ?_ ?_
            · split
              · refine goawayZeroB_append (goawayZeroB_append ?_ ?_) ?_
                · split <;> simp [goawayZeroB]
                · simp [goawayZeroB]
                · split <;> simp [goawayZeroB]
              · exact goawayZeroB_nil
            · split <;> simp [goawayZeroB]
          · split
            · exact stepOk_refl
            · split
              · exact stepOk_refl
              · split
                · exact stepOk_refl
                case _ evs heq =>
                  refine stepOk_trans_nil ?_
                    (stepOk_write_data_fin _ sid evs _ _
                      (frame_write_zero (by intro h; cases h) heq))
                  exact stepOk_of_same rfl goawayZeroB_nil

/-- `cno_write_reset` (hence `cno_connection_stop`) keeps `goaway_sent` zero
and every GOAWAY it emits carries last-stream-id 0. -/
theorem stepOk_write_reset (c : CnoConn) (sid code : Nat) :
    COutOk c (cno_write_reset c sid code) := by
  unfold cno_write_reset
  dsimp only
  split
  · split
    · exact stepOk_refl
    · split
      · exact stepOk_stream_rst c 1
      · exact stepOk_refl
  · split
    · split
      case _ c2 evs heq =>
        have := @stepOk_write_goaway c code evs (by rw [heq])
        rw [heq] at this
        exact this
      case _ c2 e heq =>
        intro h0
        have hc2 : c2 = cno_goaway_conn c := by
          have := congrArg Prod.fst heq
          simpa [cno_frame_write_goaway] using this.symm
        subst hc2
        have hcc : cno_goaway_conn c = c := by
          unfold cno_goaway_conn
          simp [h0]
        rw [hcc]
        exact ⟨h0, goawayZeroB_nil⟩
    · split
      · exact stepOk_write_rst_stream c sid code
      · exact stepOk_refl

theorem stepOk_set_config (c : CnoConn) (s : CnoSettings) :
    COutOk c (cno_connection_set_config c s) := by
  unfold cno_connection_set_config
  split
  · exact stepOk_refl
  · split
    · exact stepOk_refl
    · split
      case _ e heq => exact stepOk_refl
      case _ evs heq =>
        refine stepOk_of_same rfl ?_
        by_cases h : c.state ≠ ConnState.init ∧ cno_connection_is_http2 c
        · rw [if_pos h] at heq
          unfold cno_frame_write_settings at heq
          exact frame_write_zero (by intro hh; cases hh) heq
        · rw [if_neg h] at heq
          cases heq
          exact goawayZeroB_nil

/-- A frame of a type that is never split (neither DATA nor HEADERS nor
PUSH_PROMISE) is emitted whole whenever `cno_frame_write` succeeds. -/
theorem frame_write_ok_single {c : CnoConn} {f : CnoFrame} {evs : List Ev}
    (h7 : f.typ ≠ CNO_FRAME_DATA ∧ f.typ ≠ CNO_FRAME_HEADERS ∧
      f.typ ≠ CNO_FRAME_PUSH_PROMISE)
    (hw : cno_frame_write c f = .ok evs) : evs = [Ev.frame f] := by
  unfold cno_frame_write cno_frame_write_parts at hw
  by_cases hle : f.payload.length ≤ c.settingsRemote.max_frame_size
  · rw [if_pos hle] at hw
    simpa [Except.map] using hw.symm
  · rw [if_neg hle] at hw
    by_cases hp : f.flags.padded
    · simp [hp, Except.map] at hw
    · rw [if_neg (by simpa using hp), if_neg h7.1,
        if_neg (by rintro (h | h); exacts [h7.2.1 h, h7.2.2 h])] at hw
      simp [Except.map] at hw

/-- Claim C9: every GOAWAY frame the engine emits — through
`cno_write_reset(0, code)`, `cno_connection_stop`, or any connection-error
path inside `cno_frame_handle` — carries last-stream-id 0 in the first four
payload bytes: `goaway_sent` starts at zero, is only reassigned under the
condition that it is already non-zero, and so never becomes non-zero; every
emitted GOAWAY's first four payload bytes encode it.  `cno_write_data` and
`cno_connection_set_config` preserve the invariant as well. -/
theorem c9_goaway_zero :
    (∀ client, (cno_connection_init client).goawaySent = 0) ∧
    (∀ c : CnoConn, ∀ code, c.goawaySent = 0 →
      (cno_frame_write_goaway c code).1.goawaySent = 0 ∧
      ∀ evs, (cno_frame_write_goaway c code).2 = .ok evs →
        evs = [Ev.frame ⟨CNO_FRAME_GOAWAY, {}, 0, i32 0 ++ i32 code⟩]) ∧
    (∀ hdec : HpackDec, ∀ c : CnoConn, ∀ f, c.goawaySent = 0 →
      (cno_frame_handle hdec c f).conn.goawaySent = 0 ∧
      goawayZeroB (cno_frame_handle hdec c f).evs = true) ∧
    (∀ c : CnoConn, ∀ sid code, c.goawaySent = 0 →
      (cno_write_reset c sid code).conn.goawaySent = 0 ∧
      goawayZeroB (cno_write_reset c sid code).evs = true) ∧
    (∀ c : CnoConn, c.goawaySent = 0 →
      (cno_connection_stop c).conn.goawaySent = 0 ∧
      goawayZeroB (cno_connection_stop c).evs = true) ∧
    (∀ c : CnoConn, ∀ sid data final, c.goawaySent = 0 →
      (cno_write_data c sid data final).conn.goawaySent = 0 ∧
      goawayZeroB (cno_write_data c sid data final).evs = true) ∧
    (∀ c : CnoConn, ∀ s, c.goawaySent = 0 →
      (cno_connection_set_config c s).conn.goawaySent = 0 ∧
      goawayZeroB (cno_connection_set_config c s).evs = true) := by
  refine ⟨fun _ => rfl, ?_, ?_, ?_, ?_, ?_, ?_⟩
  · intro c code h0
    have hcc : cno_goaway_conn c = c := by
      unfold cno_goaway_conn
      simp [h0]
    constructor
    · show (cno_goaway_conn c).goawaySent = 0
      rw [hcc]
      exact h0
    · intro evs hw
      unfold cno_frame_write_goaway at hw
      rw [hcc] at hw
      have hone : evs =
          [Ev.frame ⟨CNO_FRAME_GOAWAY, {}, 0, i32 c.goawaySent ++ i32 code⟩] :=
        @frame_write_ok_single c
          ⟨CNO_FRAME_GOAWAY, {}, 0, i32 c.goawaySent ++ i32 code⟩ evs
          ⟨(by intro h; cases h), (by intro h; cases h), (by intro h; cases h)⟩ hw
      rw [hone, h0]
  · intro hdec c f h0
    exact stepOk_frame_handle hdec c f h0
  · intro c sid code h0
    exact stepOk_write_reset c sid code h0
  · intro c h0
    exact stepOk_write_reset c 0 CNO_RST_NO_ERROR h0
  · intro c sid data final h0
    exact stepOk_write_data c sid data final h0
  · intro c s h0
    exact stepOk_set_config c s h0

/-- Witness for `c9_goaway_zero`: the invariant parts applied at a concrete
connection (a fresh server connection in READY state) and frame. -/
theorem c9_goaway_zero_witness :
    (({ cno_connection_init false with state := ConnState.ready } : CnoConn).goawaySent
        = 0) ∧
    ((cno_frame_handle (fun _ => none)
        { cno_connection_init false with state := ConnState.ready }
        ⟨8, {}, 1, [0, 0, 0, 1]⟩).conn.goawaySent = 0 ∧
      goawayZeroB (cno_frame_handle (fun _ => none)
        { cno_connection_init false with state := ConnState.ready }
        ⟨8, {}, 1, [0, 0, 0, 1]⟩).evs = true) :=
  ⟨by decide,
    (c9_goaway_zero.2.2.1 (fun _ => none)
      { cno_connection_init false with state := ConnState.ready }
      ⟨8, {}, 1, [0, 0, 0, 1]⟩ (by decide))⟩

theorem lastStream_setLastStream (c : CnoConn) (lcl : Bool) (v : Nat) :
    (c.setLastStream lcl v).lastStream lcl = v := by
  unfold CnoConn.setLastStream CnoConn.lastStream
  cases lcl <;> simp

theorem lastStream_setStreamCount (c : CnoConn) (lcl lcl2 : Bool) (v : Nat) :
    (c.setStreamCount lcl2 v).lastStream lcl = c.lastStream lcl := by
  unfold CnoConn.setStreamCount CnoConn.lastStream
  cases lcl <;> cases lcl2 <;> simp

theorem lastStream_congr {a b : CnoConn} (h1 : b.lastStreamLocal = a.lastStreamLocal)
    (h2 : b.lastStreamRemote = a.lastStreamRemote) (lcl : Bool) :
    b.lastStream lcl = a.lastStream lcl := by
  unfold CnoConn.lastStream
  cases lcl <;> simp [h1, h2]

/-- Claim C1: for every `cno_stream_new` on an HTTP/2 connection — a parity
mismatch or an id not above `last_stream[side]` fails with INVALID_STREAM
and leaves the connection unchanged; a full concurrency quota fails with
WOULD_BLOCK (local side) or TRANSPORT (remote side), again unchanged; on
success `last_stream[side]` becomes the new id; and `last_stream[side]`
never decreases across the call. -/
theorem c1_stream_new_validation (c : CnoConn) (id : Nat) (lcl : Bool)
    (h2 : cno_connection_is_http2 c = true) :
    ((cno_stream_is_local c id ≠ lcl ∨ id ≤ c.lastStream lcl) →
      (cno_stream_new c id lcl).1 = c ∧
      (cno_stream_new c id lcl).2.2 = .error CnoErr.invalidStream) ∧
    (cno_stream_is_local c id = lcl → c.lastStream lcl < id →
      (c.settingsOf (!lcl)).max_concurrent_streams ≤ c.streamCount lcl →
      (cno_stream_new c id lcl).1 = c ∧
      (cno_stream_new c id lcl).2.2 =
        .error (if lcl then CnoErr.wouldBlock else CnoErr.transport)) ∧
    (∀ s, (cno_stream_new c id lcl).2.2 = .ok s →
      (cno_stream_new c id lcl).1.lastStream lcl = id ∧ s.id = id) ∧
    c.lastStream lcl ≤ (cno_stream_new c id lcl).1.lastStream lcl := by
  by_cases hpar : cno_stream_is_local c id = lcl
  · by_cases hmono : id ≤ c.lastStream lcl
    · have hbr : cno_stream_new c id lcl = (c, [], .error .invalidStream) := by
        unfold cno_stream_new
        rw [if_neg (by simp [hpar]), if_pos (by rw [h2]), if_pos hmono]
      rw [hbr]
      refine ⟨fun _ => ⟨rfl, rfl⟩,
        fun _ h _ => absurd hmono (not_le.mpr h),
        fun s hs => ?_, le_refl _⟩
      cases hs
    · have hbr : cno_stream_new c id lcl =
          cno_stream_new.cno_stream_new_checked c id lcl := by
        unfold cno_stream_new
        rw [if_neg (by simp [hpar]), if_pos (by rw [h2]), if_neg hmono]
      by_cases hcnt : (c.settingsOf (!lcl)).max_concurrent_streams ≤ c.streamCount lcl
      · have hbr2 : cno_stream_new.cno_stream_new_checked c id lcl =
            (c, [], .error (if lcl then .wouldBlock else .transport)) := by
          unfold cno_stream_new.cno_stream_new_checked
          rw [if_pos hcnt]
        rw [hbr, hbr2]
        refine ⟨?_, fun _ _ _ => ⟨rfl, rfl⟩, fun s hs => ?_, le_refl _⟩
        · rintro (h | h)
          · exact absurd hpar h
          · exact absurd h hmono
        · revert hs
          split <;> intro hs <;> cases hs
      · have hok : (cno_stream_new.cno_stream_new_checked c id lcl).2.2 =
            .ok ⟨id, {}, int32OfUInt32 c.settingsLocal.initial_window_size,
              int32OfUInt32 c.settingsRemote.initial_window_size⟩ := by
          unfold cno_stream_new.cno_stream_new_checked
          rw [if_neg hcnt]
        have hlast : (cno_stream_new.cno_stream_new_checked c id lcl).1.lastStream lcl
            = id := by
          unfold cno_stream_new.cno_stream_new_checked
          rw [if_neg hcnt]
          dsimp only
          rw [lastStream_setStreamCount]
          refine (lastStream_congr rfl rfl lcl).trans ?_
          exact lastStream_setLastStream c lcl id
        rw [hbr]
        refine ⟨?_, fun _ _ h => absurd h hcnt, fun s hs => ?_, ?_⟩
        · rintro (h | h)
          · exact absurd hpar h
          · exact absurd h hmono
        · rw [hok] at hs
          cases hs
          exact ⟨hlast, rfl⟩
        · rw [hlast]
          exact le_of_lt (not_le.mp hmono)
  · have hbr : cno_stream_new c id lcl = (c, [], .error .invalidStream) := by
      unfold cno_stream_new
      rw [if_pos (by simp [hpar])]
    rw [hbr]
    refine ⟨fun _ => ⟨rfl, rfl⟩, fun h => absurd h hpar,
      fun s hs => ?_, le_refl _⟩
    cases hs

/-- A fresh HTTP/2 client connection in READY state, for the C1 witness. -/
def fixtureC1 : CnoConn := { cno_connection_init true with state := ConnState.ready }

/-- Witness for `c1_stream_new_validation`: creating stream 1 locally on a
fresh client connection. -/
theorem c1_stream_new_validation_witness :
    (cno_connection_is_http2 fixtureC1 = true) ∧
    (((cno_stream_is_local fixtureC1 1 ≠ true ∨ 1 ≤ fixtureC1.lastStream true) →
        (cno_stream_new fixtureC1 1 true).1 = fixtureC1 ∧
        (cno_stream_new fixtureC1 1 true).2.2 = .error CnoErr.invalidStream) ∧
      (cno_stream_is_local fixtureC1 1 = true → fixtureC1.lastStream true < 1 →
        (fixtureC1.settingsOf (!true)).max_concurrent_streams ≤
          fixtureC1.streamCount true →
        (cno_stream_new fixtureC1 1 true).1 = fixtureC1 ∧
        (cno_stream_new fixtureC1 1 true).2.2 =
          .error (if true then CnoErr.wouldBlock else CnoErr.transport)) ∧
      (∀ s, (cno_stream_new fixtureC1 1 true).2.2 = .ok s →
        (cno_stream_new fixtureC1 1 true).1.lastStream true = 1 ∧ s.id = 1) ∧
      fixtureC1.lastStream true ≤ (cno_stream_new fixtureC1 1 true).1.lastStream true) :=
  ⟨by decide, c1_stream_new_validation fixtureC1 1 true (by decide)⟩

theorem goaway_conn_fields (c : CnoConn) :
    (cno_goaway_conn c).windowSend = c.windowSend ∧
    (cno_goaway_conn c).streams = c.streams := by
  unfold cno_goaway_conn
  split <;> exact ⟨rfl, rfl⟩

theorem write_error_fields (c : CnoConn) (code : Nat) :
    (cno_frame_write_error c code).conn.windowSend = c.windowSend ∧
    (cno_frame_write_error c code).conn.streams = c.streams := by
  unfold cno_frame_write_error
  cases hw : cno_frame_write_goaway c code with
  | mk c2 r =>
    have hc2 : c2 = cno_goaway_conn c := by
      have := congrArg Prod.fst hw
      simpa [cno_frame_write_goaway] using this.symm
    subst hc2
    cases r
    · exact (goaway_conn_fields c)
    · exact (goaway_conn_fields c)

theorem rst_stream_fields (c : CnoConn) (sid code : Nat) :
    (cno_frame_write_rst_stream c sid code).conn.windowSend = c.windowSend ∧
    ∀ t ∈ (cno_frame_write_rst_stream c sid code).conn.streams,
      ∃ s ∈ c.streams, t.windowSend = s.windowSend := by
  unfold cno_frame_write_rst_stream
  split
  case _ e heq => exact ⟨rfl, fun t ht => ⟨t, ht, rfl⟩⟩
  case _ evs heq =>
    split
    · refine ⟨rfl, fun t ht => ?_⟩
      obtain ⟨s, hs, heq2⟩ := List.mem_map.mp ht
      refine ⟨s, hs, ?_⟩
      by_cases h : s.id = sid <;> simp [h] at heq2 <;> rw [← heq2]
    · refine ⟨?_, fun t ht => ?_⟩
      · unfold cno_stream_rst_by_local cno_stream_rst cno_stream_free
        dsimp only
        split
        · rfl
        · unfold CnoConn.setStreamCount
          split <;> rfl
      · refine ⟨t, ?_, rfl⟩
        revert ht
        unfold cno_stream_rst_by_local cno_stream_rst cno_stream_free
        dsimp only
        split
        · exact fun ht => ht
        · unfold CnoConn.setStreamCount
          intro ht
          have hsub : t ∈ c.streams := by
            revert ht
            split <;> exact fun ht => List.mem_of_mem_eraseP ht
          exact hsub

theorem find_updateStream_go (l : List CnoStream) (id : Nat)
    (g : CnoStream → CnoStream) (hid : ∀ v, (g v).id = v.id) :
    (l.map (fun v => if v.id = id then g v else v)).find? (fun v => v.id = id) =
      (l.find? (fun v => v.id = id)).map (fun v => if v.id = id then g v else v) := by
  induction l with
  | nil => rfl
  | cons hd tl ih =>
    by_cases h : hd.id = id
    · rw [List.map_cons, List.find?_cons_of_pos _ (by simp [h, hid]),
        List.find?_cons_of_pos _ (by simp [h])]
      rfl
    · rw [List.map_cons, List.find?_cons_of_neg _ (by simp [h]),
        List.find?_cons_of_neg _ (by simp [h]), ih]

theorem find_updateStream (c : CnoConn) (id : Nat) (g : CnoStream → CnoStream)
    (hid : ∀ v, (g v).id = v.id) :
    cno_stream_find (c.updateStream id g) id =
      (cno_stream_find c id).map (fun v => if v.id = id then g v else v) := by
  unfold cno_stream_find CnoConn.updateStream
  exact find_updateStream_go c.streams id g hid

theorem invalid_stream_fields (c : CnoConn) (f : CnoFrame) :
    (cno_frame_handle_invalid_stream c f).conn.windowSend = c.windowSend ∧
    (cno_frame_handle_invalid_stream c f).conn.streams = c.streams := by
  unfold cno_frame_handle_invalid_stream
  split
  · exact ⟨rfl, rfl⟩
  · exact write_error_fields c _

set_option maxHeartbeats 800000 in
/-- Claim C2: connection and stream send windows never exceed `0x7FFFFFFF`.
A WINDOW_UPDATE on stream 0 whose increment would push the connection send
window above `2^31 - 1` emits GOAWAY(FLOW_CONTROL_ERROR) and returns
TRANSPORT with the window unchanged; one on a known stream whose increment
would overflow that stream's send window emits RST_STREAM(FLOW_CONTROL_ERROR)
without changing any stream's window; otherwise the increment is added to
the corresponding window and `on_flow_increase` fires afterwards.  The
bounds on both kinds of windows are preserved. -/
theorem c2_window_update (c : CnoConn) (f : CnoFrame)
    (hlen : f.payload.length = 4)
    (hinc1 : 1 ≤ read4 f.payload) (hinc2 : read4 f.payload ≤ 2 ^ 31 - 1)
    (hlimit : 8 ≤ c.settingsRemote.max_frame_size) :
    (f.stream = 0 → (2 ^ 31 - 1 : Int) < c.windowSend + (read4 f.payload : Int) →
      (cno_frame_handle_window_update c f).err = some CnoErr.transport ∧
      (∃ g, (cno_frame_handle_window_update c f).evs = [Ev.frame g] ∧
        g.typ = CNO_FRAME_GOAWAY ∧
        g.payload.drop 4 = i32 CNO_RST_FLOW_CONTROL_ERROR) ∧
      (cno_frame_handle_window_update c f).conn.windowSend = c.windowSend) ∧
    (∀ s, f.stream ≠ 0 → cno_stream_find c f.stream = some s →
      (2 ^ 31 - 1 : Int) < s.windowSend + (read4 f.payload : Int) →
      (cno_frame_handle_window_update c f).err = none ∧
      (∃ evs2, (cno_frame_handle_window_update c f).evs =
        Ev.frame ⟨CNO_FRAME_RST_STREAM, {}, f.stream,
          i32 CNO_RST_FLOW_CONTROL_ERROR⟩ :: evs2) ∧
      ∀ t ∈ (cno_frame_handle_window_update c f).conn.streams,
        ∃ u ∈ c.streams, t.windowSend = u.windowSend) ∧
    (f.stream = 0 → c.windowSend + (read4 f.payload : Int) ≤ 2 ^ 31 - 1 →
      (cno_frame_handle_window_update c f).err = none ∧
      (cno_frame_handle_window_update c f).conn.windowSend =
        c.windowSend + (read4 f.payload : Int) ∧
      (cno_frame_handle_window_update c f).evs = [Ev.flowIncrease 0]) ∧
    (∀ s, f.stream ≠ 0 → cno_stream_find c f.stream = some s →
      s.windowSend + (read4 f.payload : Int) ≤ 2 ^ 31 - 1 →
      (cno_frame_handle_window_update c f).err = none ∧
      (cno_frame_handle_window_update c f).evs = [Ev.flowIncrease f.stream] ∧
      cno_stream_find (cno_frame_handle_window_update c f).conn f.stream =
        some { s with windowSend := s.windowSend + (read4 f.payload : Int) }) ∧
    ((c.windowSend ≤ 2 ^ 31 - 1 →
      (cno_frame_handle_window_update c f).conn.windowSend ≤ 2 ^ 31 - 1)) := by
  have hfr : ∀ sid : Nat, (⟨CNO_FRAME_RST_STREAM, {}, sid,
      i32 CNO_RST_FLOW_CONTROL_ERROR⟩ : CnoFrame).payload.length ≤
      c.settingsRemote.max_frame_size := by
    intro sid
    calc (i32 CNO_RST_FLOW_CONTROL_ERROR).length = 4 := i32_length _
    _ ≤ 8 := by omega
    _ ≤ _ := hlimit
  unfold cno_frame_handle_window_update
  rw [if_neg (by rw [hlen]; omega), if_neg (by push_neg; omega)]
  by_cases hs0 : f.stream = 0
  · rw [if_pos hs0]
    by_cases hov : (2 ^ 31 - 1 : Int) - (read4 f.payload : Int) < c.windowSend
    · rw [if_pos hov]
      obtain ⟨herr, g, hevs, htyp, hstr, hdrop⟩ :=
        cno_frame_write_error_spec c CNO_RST_FLOW_CONTROL_ERROR hlimit
      refine ⟨fun _ _ => ⟨herr, ⟨g, hevs, htyp, hdrop⟩, (write_error_fields c _).1⟩,
        fun s hns => absurd hs0 hns, fun _ hle => absurd hov (by omega),
        fun s hns => absurd hs0 hns, fun hb => ?_⟩
      rw [(write_error_fields c _).1]
      exact hb
    · rw [if_neg hov]
      refine ⟨fun _ hgt => absurd hov (by push_neg; omega),
        fun s hns => absurd hs0 hns,
        fun _ _ => ⟨rfl, rfl, rfl⟩,
        fun s hns => absurd hs0 hns, fun _ => by dsimp only; omega⟩
  · rw [if_neg hs0]
    cases hf : cno_stream_find c f.stream with
    | none =>
      refine ⟨fun h0 => absurd h0 hs0, fun s _ hsome => ?_,
        fun h0 => absurd h0 hs0, fun s _ hsome => ?_, fun hb => ?_⟩
      · simp at hsome
      · simp at hsome
      · show (cno_frame_handle_invalid_stream c f).conn.windowSend ≤ _
        rw [(invalid_stream_fields c f).1]
        exact hb
    | some s =>
      dsimp only
      by_cases hov : (2 ^ 31 - 1 : Int) - (read4 f.payload : Int) < s.windowSend
      · rw [if_pos hov]
        refine ⟨fun h0 => absurd h0 hs0, fun u _ hsome hgt => ?_,
          fun h0 => absurd h0 hs0, fun u _ hsome hle => ?_, fun hb => ?_⟩
        · injection hsome with he
          subst he
          refine ⟨?_, ?_, (rst_stream_fields c f.stream _).2⟩
          · unfold cno_frame_write_rst_stream
            rw [cno_frame_write_single _ _ (hfr f.stream)]
            dsimp only
            split <;> rfl
          · unfold cno_frame_write_rst_stream
            rw [cno_frame_write_single _ _ (hfr f.stream)]
            dsimp only
            split
            · exact ⟨[], rfl⟩
            · exact ⟨(cno_stream_rst_by_local c f.stream).2, rfl⟩
        · injection hsome with he
          subst he
          exact absurd hov (by push_neg; omega)
        · rw [(rst_stream_fields c f.stream _).1]
          exact hb
      · rw [if_neg hov]
        refine ⟨fun h0 => absurd h0 hs0, fun u _ hsome hgt => ?_,
          fun h0 => absurd h0 hs0, fun u _ hsome hle => ?_, fun hb => hb⟩
        · injection hsome with he
          subst he
          exact absurd hov (by omega)
        · injection hsome with he
          subst he
          refine ⟨rfl, rfl, ?_⟩
          rw [find_updateStream c f.stream
              (fun t => { t with windowSend := t.windowSend + (read4 f.payload : Int) })
              (fun v => rfl), hf]
          dsimp only [Option.map]
          have hid : s.id = f.stream := by
            unfold cno_stream_find at hf
            have h2 := List.find?_some hf
            simpa using h2
          rw [if_pos hid]

/-- A server connection with one DATA-accepting stream, for witnesses. -/
def fixtureC2 : CnoConn :=
  { cno_connection_init false with
    state := ConnState.ready
    streams := [⟨1, { data := true }, 65535, 65535⟩]
    streamCountRemote := 1 }

/-- Witness for `c2_window_update`: an increment of 5 on stream 0 of a
fresh connection is added to the connection send window. -/
theorem c2_window_update_witness :
    ((⟨CNO_FRAME_WINDOW_UPDATE, {}, 0, i32 5⟩ : CnoFrame).payload.length = 4 ∧
      1 ≤ read4 (i32 5) ∧ read4 (i32 5) ≤ 2 ^ 31 - 1 ∧
      8 ≤ fixtureC2.settingsRemote.max_frame_size) ∧
    ((cno_frame_handle_window_update fixtureC2
        ⟨CNO_FRAME_WINDOW_UPDATE, {}, 0, i32 5⟩).err = none ∧
      (cno_frame_handle_window_update fixtureC2
        ⟨CNO_FRAME_WINDOW_UPDATE, {}, 0, i32 5⟩).conn.windowSend =
        fixtureC2.windowSend + (read4 (i32 5) : Int) ∧
      (cno_frame_handle_window_update fixtureC2
        ⟨CNO_FRAME_WINDOW_UPDATE, {}, 0, i32 5⟩).evs = [Ev.flowIncrease 0]) :=
  ⟨⟨by decide, by decide, by decide, by decide⟩,
    (c2_window_update fixtureC2 ⟨CNO_FRAME_WINDOW_UPDATE, {}, 0, i32 5⟩
      (by decide) (by decide) (by decide) (by decide)).2.2.1 rfl (by decide)⟩

theorem write_error_settingsRemote (c : CnoConn) (code : Nat) :
    (cno_frame_write_error c code).conn.settingsRemote = c.settingsRemote := by
  unfold cno_frame_write_error
  cases hw : cno_frame_write_goaway c code with
  | mk c2 r =>
    have hc2 : c2 = cno_goaway_conn c := by
      have := congrArg Prod.fst hw
      simpa [cno_frame_write_goaway] using this.symm
    subst hc2
    cases r <;>
      · show (cno_goaway_conn c).settingsRemote = c.settingsRemote
        unfold cno_goaway_conn
        split <;> rfl

/-- A fresh server connection in READY state, for the C10 counterexample. -/
def fixtureC10 : CnoConn := { cno_connection_init false with state := ConnState.ready }

/-- Counterexample to claim C10 as stated: a SETTINGS frame carrying
`max_frame_size = 0` (out of bounds) leaves the value in
`settings[remote]`, but no GOAWAY is emitted and the result is ASSERTION,
not TRANSPORT — the GOAWAY itself cannot be written within the corrupted
0-byte frame-size limit. -/
theorem c10_settings_persist_counterexample :
    (cno_frame_handle_settings fixtureC10
      ⟨CNO_FRAME_SETTINGS, {}, 0, [0, 5, 0, 0, 0, 0]⟩).err = some CnoErr.assertion ∧
    (cno_frame_handle_settings fixtureC10
      ⟨CNO_FRAME_SETTINGS, {}, 0, [0, 5, 0, 0, 0, 0]⟩).evs = [] ∧
    (cno_frame_handle_settings fixtureC10
      ⟨CNO_FRAME_SETTINGS, {}, 0,
        [0, 5, 0, 0, 0, 0]⟩).conn.settingsRemote.max_frame_size = 0 := by
  refine ⟨?_, ?_, ?_⟩ <;> decide

set_option maxHeartbeats 800000 in
/-- Claim C10, amended: when an inbound SETTINGS frame (stream 0, non-ACK,
payload a multiple of 6) leaves an out-of-bounds value in the remote
settings — `enable_push > 1`, `initial_window_size > 0x7FFFFFFF`, or
`max_frame_size` outside `[16384, 16777215]` — the handler returns TRANSPORT
after emitting GOAWAY, provided the (possibly just-overwritten) remote
`max_frame_size` still admits the 8-byte GOAWAY (otherwise the GOAWAY write
itself fails and its ASSERTION error is returned instead); in all cases
every recognised value from the frame has already been written into
`settings[remote]` and is not restored on error. -/
theorem c10_settings_persist (c : CnoConn) (f : CnoFrame)
    (hs0 : f.stream = 0) (hack : f.flags.ack = false)
    (hlen : f.payload.length % 6 = 0)
    (hoob : 1 < (cno_settings_apply c.settingsRemote f.payload).enable_push ∨
      2 ^ 31 - 1 < (cno_settings_apply c.settingsRemote f.payload).initial_window_size ∨
      (cno_settings_apply c.settingsRemote f.payload).max_frame_size < 16384 ∨
      16777215 < (cno_settings_apply c.settingsRemote f.payload).max_frame_size)
    (hlimit : 8 ≤ (cno_settings_apply c.settingsRemote f.payload).max_frame_size) :
    (cno_frame_handle_settings c f).err = some CnoErr.transport ∧
    (∃ g, (cno_frame_handle_settings c f).evs = [Ev.frame g] ∧
      g.typ = CNO_FRAME_GOAWAY) ∧
    (cno_frame_handle_settings c f).conn.settingsRemote =
      cno_settings_apply c.settingsRemote f.payload := by
  unfold cno_frame_handle_settings
  rw [if_neg (by simp [hs0]), if_neg (by simp [CnoFlags.ack] at hack ⊢; simp [hack]),
    if_neg (by simp [hlen])]
  dsimp only
  have hlim2 : 8 ≤ ({ c with
      settingsRemote := cno_settings_apply c.settingsRemote f.payload
    } : CnoConn).settingsRemote.max_frame_size := hlimit
  by_cases h1 : 1 < (cno_settings_apply c.settingsRemote f.payload).enable_push
  · rw [if_pos h1]
    obtain ⟨herr, g, hevs, htyp, -, -⟩ := cno_frame_write_error_spec _ _ hlim2
    exact ⟨herr, ⟨g, hevs, htyp⟩, (write_error_settingsRemote _ _).trans rfl⟩
  · rw [if_neg h1]
    by_cases h2 : 2 ^ 31 - 1 <
        (cno_settings_apply c.settingsRemote f.payload).initial_window_size
    · rw [if_pos h2]
      obtain ⟨herr, g, hevs, htyp, -, -⟩ := cno_frame_write_error_spec _ _ hlim2
      exact ⟨herr, ⟨g, hevs, htyp⟩, (write_error_settingsRemote _ _).trans rfl⟩
    · rw [if_neg h2]
      have h3 : (cno_settings_apply c.settingsRemote f.payload).max_frame_size < 16384 ∨
          16777215 < (cno_settings_apply c.settingsRemote f.payload).max_frame_size := by
        rcases hoob with h | h | h | h
        · exact absurd h h1
        · exact absurd h h2
        · exact Or.inl h
        · exact Or.inr h
      rw [if_pos h3]
      obtain ⟨herr, g, hevs, htyp, -, -⟩ := cno_frame_write_error_spec _ _ hlim2
      exact ⟨herr, ⟨g, hevs, htyp⟩, (write_error_settingsRemote _ _).trans rfl⟩

/-- Witness for `c10_settings_persist`: `enable_push = 7` from the wire is
stored in `settings[remote]` and the handler fails with TRANSPORT after a
GOAWAY. -/
theorem c10_settings_persist_witness :
    ((0 : Nat) = 0 ∧
      (⟨CNO_FRAME_SETTINGS, {}, 0, [0, 2, 0, 0, 0, 7]⟩ : CnoFrame).flags.ack = false ∧
      ([0, 2, 0, 0, 0, 7] : List Nat).length % 6 = 0 ∧
      1 < (cno_settings_apply fixtureC10.settingsRemote
        [0, 2, 0, 0, 0, 7]).enable_push ∧
      8 ≤ (cno_settings_apply fixtureC10.settingsRemote
        [0, 2, 0, 0, 0, 7]).max_frame_size) ∧
    ((cno_frame_handle_settings fixtureC10
        ⟨CNO_FRAME_SETTINGS, {}, 0, [0, 2, 0, 0, 0, 7]⟩).err = some CnoErr.transport ∧
      (∃ g, (cno_frame_handle_settings fixtureC10
        ⟨CNO_FRAME_SETTINGS, {}, 0, [0, 2, 0, 0, 0, 7]⟩).evs = [Ev.frame g] ∧
        g.typ = CNO_FRAME_GOAWAY) ∧
      (cno_frame_handle_settings fixtureC10
        ⟨CNO_FRAME_SETTINGS, {}, 0, [0, 2, 0, 0, 0, 7]⟩).conn.settingsRemote =
        cno_settings_apply fixtureC10.settingsRemote [0, 2, 0, 0, 0, 7]) :=
  ⟨⟨rfl, by decide, by decide, by decide, by decide⟩,
    c10_settings_persist fixtureC10 ⟨CNO_FRAME_SETTINGS, {}, 0, [0, 2, 0, 0, 0, 7]⟩
      rfl (by decide) (by decide) (Or.inl (by decide)) (by decide)⟩

/-! ### SETTINGS delta frames (claim C8) -/

/-- Parse a SETTINGS payload back into (identifier, value) entries. -/
def deltaEntries : List Nat → List (Nat × Nat)
  | b0 :: b1 :: b2 :: b3 :: b4 :: b5 :: rest =>
    (read2 [b0, b1], read4 [b2, b3, b4, b5]) :: deltaEntries rest
  | _ => []

theorem read2_pack (x : Nat) (h : x < 2 ^ 16) :
    read2 [x / 2 ^ 8 % 256, x % 256] = x := by
  unfold read2 byte
  simp [List.getD]
  omega

theorem read4_pack (v : Nat) (h : v < 2 ^ 32) :
    read4 [v / 2 ^ 24 % 256, v / 2 ^ 16 % 256, v / 2 ^ 8 % 256, v % 256] = v := by
  unfold read4 byte
  simp [List.getD]
  omega

theorem deltaEntries_chunk (x v : Nat) (rest : List Nat) (hx : x < 2 ^ 16)
    (hv : v < 2 ^ 32) :
    deltaEntries (i16 x ++ i32 v ++ rest) = (x, v) :: deltaEntries rest := by
  have h1 : deltaEntries (i16 x ++ i32 v ++ rest) =
      (read2 [x / 2 ^ 8 % 256, x % 256],
       read4 [v / 2 ^ 24 % 256, v / 2 ^ 16 % 256, v / 2 ^ 8 % 256, v % 256]) ::
      deltaEntries rest := rfl
  rw [h1, read2_pack x hx, read4_pack v hv]

theorem deltaEntries_flat (a b : CnoSettings) :
    ∀ idxs : List Nat, (∀ j ∈ idxs, b.get j < 2 ^ 32) → (∀ j ∈ idxs, j + 1 < 2 ^ 16) →
    deltaEntries (idxs.flatMap
      (fun j => if a.get j ≠ b.get j then i16 (j + 1) ++ i32 (b.get j) else [])) =
      idxs.filterMap
        (fun j => if a.get j ≠ b.get j then some (j + 1, b.get j) else none) := by
  intro idxs
  induction idxs with
  | nil => intro _ _; rfl
  | cons hd tl ih =>
    intro hb hsmall
    rw [List.flatMap_cons, List.filterMap_cons]
    by_cases h : a.get hd ≠ b.get hd
    · rw [if_pos h, if_pos h,
        deltaEntries_chunk _ _ _ (hsmall hd (List.mem_cons_self hd tl))
          (hb hd (List.mem_cons_self hd tl)),
        ih (fun j hj => hb j (List.mem_cons_of_mem hd hj))
          (fun j hj => hsmall j (List.mem_cons_of_mem hd hj))]
    · rw [if_neg h, if_neg h, List.nil_append,
        ih (fun j hj => hb j (List.mem_cons_of_mem hd hj))
          (fun j hj => hsmall j (List.mem_cons_of_mem hd hj))]

/-- The SETTINGS delta payload parses back to exactly the entries whose
values differ between the two vectors. -/
theorem deltaEntries_settingsDelta (a b : CnoSettings)
    (hb : ∀ j, j < 6 → b.get j < 2 ^ 32) :
    deltaEntries (settingsDelta a b) =
      (List.range 6).filterMap
        (fun j => if a.get j ≠ b.get j then some (j + 1, b.get j) else none) := by
  unfold settingsDelta
  refine deltaEntries_flat a b (List.range 6) ?_ ?_
  · intro j hj
    exact hb j (List.mem_range.mp hj)
  · intro j hj
    have := List.mem_range.mp hj
    omega

theorem settingsDelta_length (a b : CnoSettings) : (settingsDelta a b).length ≤ 36 := by
  have hgen : ∀ idxs : List Nat, (idxs.flatMap
      (fun j => if a.get j ≠ b.get j then i16 (j + 1) ++ i32 (b.get j) else [])).length ≤
      6 * idxs.length := by
    intro idxs
    induction idxs with
    | nil => simp
    | cons hd tl ih =>
      rw [List.flatMap_cons, List.length_append]
      have hc : (if a.get hd ≠ b.get hd then i16 (hd + 1) ++ i32 (b.get hd)
          else []).length ≤ 6 := by
        split <;> simp [i16, i32]
      simp only [List.length_cons]
      omega
  unfold settingsDelta
  simpa using hgen (List.range 6)

/-- A fresh HTTP/2 client connection still in the INIT state, for the C8
counterexample. -/
def fixtureC8 : CnoConn := { cno_connection_init true with state := ConnState.init }

/-- The settings vector of the C8 counterexample (push disabled). -/
def settingsC8 : CnoSettings := { CNO_SETTINGS_INITIAL with enable_push := 0 }

/-- Counterexample to claim C8 as stated: in the INIT state the connection
is already in HTTP/2 mode (`cno_connection_is_http2` is true) and the call
succeeds with a changed field, yet no SETTINGS frame is emitted
(`cno_connection_upgrade` will send one later). -/
theorem c8_set_config_counterexample :
    cno_connection_is_http2 fixtureC8 = true ∧
    settingsC8 ≠ fixtureC8.settingsLocal ∧
    (cno_connection_set_config fixtureC8 settingsC8).err = none ∧
    (cno_connection_set_config fixtureC8 settingsC8).evs = [] ∧
    (cno_connection_set_config fixtureC8 settingsC8).conn.settingsLocal = settingsC8 := by
  refine ⟨?_, ?_, ?_, ?_, ?_⟩ <;> decide

/-- Claim C8, amended: a `set_config` call with `enable_push` outside
`{0, 1}` or `max_frame_size` outside `[16384, 16777215]` fails with
ASSERTION leaving everything unchanged; a valid call stores the new vector
as `settings[local]`, and — when the connection is in HTTP/2 mode *and past
the INIT state* — first emits one SETTINGS frame whose payload parses to
exactly the fields whose values differ from the current local settings.  In
INIT (or outside HTTP/2 mode) nothing is emitted. -/
theorem c8_set_config (c : CnoConn) (s : CnoSettings)
    (hbnew : ∀ j, j < 6 → s.get j < 2 ^ 32)
    (hlimit : 36 ≤ c.settingsRemote.max_frame_size) :
    (((s.enable_push ≠ 0 ∧ s.enable_push ≠ 1) ∨ s.max_frame_size < 16384 ∨
        16777215 < s.max_frame_size) →
      cno_connection_set_config c s = ⟨c, [], some CnoErr.assertion⟩) ∧
    ((s.enable_push = 0 ∨ s.enable_push = 1) → 16384 ≤ s.max_frame_size →
      s.max_frame_size ≤ 16777215 →
      (cno_connection_set_config c s).err = none ∧
      (cno_connection_set_config c s).conn.settingsLocal = s ∧
      ((c.state ≠ ConnState.init ∧ cno_connection_is_http2 c = true) →
        (cno_connection_set_config c s).evs =
          [Ev.frame ⟨CNO_FRAME_SETTINGS, {}, 0, settingsDelta c.settingsLocal s⟩] ∧
        deltaEntries (settingsDelta c.settingsLocal s) =
          (List.range 6).filterMap
            (fun j => if c.settingsLocal.get j ≠ s.get j then some (j + 1, s.get j)
              else none)) ∧
      (¬(c.state ≠ ConnState.init ∧ cno_connection_is_http2 c = true) →
        (cno_connection_set_config c s).evs = [])) := by
  constructor
  · intro hbad
    unfold cno_connection_set_config
    by_cases hp : s.enable_push ≠ 0 ∧ s.enable_push ≠ 1
    · rw [if_pos hp]
    · rw [if_neg hp]
      have hm : s.max_frame_size < 16384 ∨ 16777215 < s.max_frame_size := by
        rcases hbad with h | h | h
        · exact absurd h hp
        · exact Or.inl h
        · exact Or.inr h
      rw [if_pos hm]
  · intro hpush hlo hhi
    unfold cno_connection_set_config
    rw [if_neg (by rcases hpush with h | h <;> simp [h]),
      if_neg (by push_neg; omega)]
    by_cases hmode : c.state ≠ ConnState.init ∧ cno_connection_is_http2 c = true
    · rw [if_pos (by exact ⟨hmode.1, hmode.2⟩)]
      have hw : cno_frame_write_settings c c.settingsLocal s =
          .ok [Ev.frame ⟨CNO_FRAME_SETTINGS, {}, 0, settingsDelta c.settingsLocal s⟩] := by
        unfold cno_frame_write_settings
        exact cno_frame_write_single c _ (le_trans (settingsDelta_length _ _) hlimit)
      rw [hw]
      exact ⟨rfl, rfl, fun _ => ⟨rfl, deltaEntries_settingsDelta _ _ hbnew⟩,
        fun hc => absurd hmode hc⟩
    · rw [if_neg (by intro h; exact hmode ⟨h.1, h.2⟩)]
      exact ⟨rfl, rfl, fun hc => absurd hc hmode, fun _ => rfl⟩

/-- Witness for `c8_set_config`: disabling push on a READY connection emits
one SETTINGS frame with exactly the `enable_push` delta. -/
theorem c8_set_config_witness :
    ((∀ j, j < 6 → settingsC8.get j < 2 ^ 32) ∧
      36 ≤ ({ cno_connection_init true with
        state := ConnState.ready } : CnoConn).settingsRemote.max_frame_size ∧
      (settingsC8.enable_push = 0 ∨ settingsC8.enable_push = 1) ∧
      16384 ≤ settingsC8.max_frame_size ∧ settingsC8.max_frame_size ≤ 16777215) ∧
    ((cno_connection_set_config
        { cno_connection_init true with state := ConnState.ready } settingsC8).err
        = none ∧
      (cno_connection_set_config
        { cno_connection_init true with state := ConnState.ready }
        settingsC8).conn.settingsLocal = settingsC8 ∧
      (cno_connection_set_config
        { cno_connection_init true with state := ConnState.ready } settingsC8).evs =
        [Ev.frame ⟨CNO_FRAME_SETTINGS, {}, 0,
          settingsDelta ({ cno_connection_init true with
            state := ConnState.ready } : CnoConn).settingsLocal settingsC8⟩]) := by
  have hmain := c8_set_config
    { cno_connection_init true with state := ConnState.ready } settingsC8
    (by decide) (by decide)
  have h2 := hmain.2 (Or.inl (by decide)) (by decide) (by decide)
  exact ⟨⟨by decide, by decide, Or.inl (by decide), by decide, by decide⟩,
    h2.1, h2.2.1, (h2.2.2.1 ⟨by decide, by decide⟩).1⟩

/-- A server connection with one DATA-accepting stream, for C5. -/
def fixtureC5 : CnoConn :=
  { cno_connection_init false with
    state := ConnState.ready
    streams := [⟨1, { data := true }, 65535, 65535⟩]
    streamCountRemote := 1 }

/-- Counterexample to claim C5 as stated: a padded DATA frame of 10 payload
bytes (pad-length byte 4, so 5 content bytes) produces a stream-level
WINDOW_UPDATE with increment 10 — the full payload size captured before the
padding was stripped — not the unpadded size 5. -/
theorem c5_data_wu_counterexample :
    (cno_frame_handle_data fixtureC5
      ⟨CNO_FRAME_DATA, { padded := true }, 1, [4, 1, 2, 3, 4, 5, 9, 9, 9, 9]⟩).evs =
      [Ev.frame ⟨CNO_FRAME_WINDOW_UPDATE, {}, 0, i32 10⟩,
       Ev.messageData 1 [1, 2, 3, 4, 5],
       Ev.frame ⟨CNO_FRAME_WINDOW_UPDATE, {}, 1, i32 10⟩] ∧
    ([1, 2, 3, 4, 5] : List Nat).length = 5 ∧ i32 10 ≠ i32 5 := by
  refine ⟨?_, ?_, ?_⟩ <;> decide

set_option maxHeartbeats 800000 in
/-- Claim C5, amended: when an inbound DATA frame with a non-empty payload
is delivered on a stream that accepts DATA, manual flow control is
disabled, and END_STREAM is not set, the engine emits a connection-level
WINDOW_UPDATE, delivers the unpadded bytes, and then emits a stream-level
WINDOW_UPDATE whose increment equals the *full* payload size (including
the pad-length byte and the padding) — the same value as the
connection-level update — not the unpadded size. -/
theorem c5_data_window_update (c : CnoConn) (f : CnoFrame) (s : CnoStream)
    (hfind : cno_stream_find c f.stream = some s)
    (hacc : s.accept.data = true)
    (hman : c.manualFlowControl = false)
    (hes : f.flags.endStream = false)
    (hne : f.payload ≠ [])
    (hpad : f.flags.padded = true → read1 f.payload + 1 ≤ f.payload.length)
    (hlimit : 4 ≤ c.settingsRemote.max_frame_size) :
    (cno_frame_handle_data c f).err = none ∧
    (cno_frame_handle_data c f).evs =
      [Ev.frame ⟨CNO_FRAME_WINDOW_UPDATE, {}, 0, i32 f.payload.length⟩,
       Ev.messageData f.stream
         (if f.flags.padded then
           (f.payload.drop 1).take (f.payload.length - (read1 f.payload + 1))
          else f.payload),
       Ev.frame ⟨CNO_FRAME_WINDOW_UPDATE, {}, f.stream, i32 f.payload.length⟩] := by
  have hw0 : cno_frame_write c
      ⟨CNO_FRAME_WINDOW_UPDATE, {}, 0, i32 f.payload.length⟩ =
      .ok [Ev.frame ⟨CNO_FRAME_WINDOW_UPDATE, {}, 0, i32 f.payload.length⟩] :=
    cno_frame_write_single c _ (by rw [i32_length]; exact hlimit)
  have hws : cno_frame_write c
      ⟨CNO_FRAME_WINDOW_UPDATE, {}, f.stream, i32 f.payload.length⟩ =
      .ok [Ev.frame ⟨CNO_FRAME_WINDOW_UPDATE, {}, f.stream, i32 f.payload.length⟩] :=
    cno_frame_write_single c _ (by rw [i32_length]; exact hlimit)
  have hlen0 : f.payload.length ≠ 0 := by
    cases hp : f.payload
    · exact absurd hp hne
    · simp [hp]
  unfold cno_frame_handle_data
  by_cases hp : f.flags.padded
  · have hstrip : cno_frame_handle_padding c f = .inr { f with
        payload := (f.payload.drop 1).take (f.payload.length - (read1 f.payload + 1)) } := by
      unfold cno_frame_handle_padding
      rw [if_pos hp]
      cases hpl : f.payload with
      | nil => exact absurd hpl hne
      | cons b rest =>
        dsimp only
        rw [if_neg (by
          have := hpad hp
          rw [hpl] at this
          unfold read1 at this
          simp [List.getD] at this ⊢
          omega)]
        have hr1 : byte b = read1 f.payload := by
          rw [hpl]
          rfl
        rw [hr1, ← hpl]
    rw [hstrip]
    dsimp only
    rw [if_pos hlen0, hw0]
    dsimp only
    rw [hfind]
    dsimp only
    rw [if_neg (by simp [hacc]), if_neg (by simp [hes]),
      if_neg (by simp [hlen0, hman]), hws]
    rw [if_pos hp]
    exact ⟨rfl, rfl⟩
  · have hstrip : cno_frame_handle_padding c f = .inr f := by
      unfold cno_frame_handle_padding
      rw [if_neg hp]
    rw [hstrip]
    dsimp only
    rw [if_pos hlen0, hw0]
    dsimp only
    rw [hfind]
    dsimp only
    rw [if_neg (by simp [hacc]), if_neg (by simp [hes]),
      if_neg (by simp [hlen0, hman]), hws]
    rw [if_neg (by simp [hp])]
    exact ⟨rfl, rfl⟩

/-- Witness for `c5_data_window_update` at the padded frame of the
counterexample. -/
theorem c5_data_window_update_witness :
    (cno_stream_find fixtureC5 1 = some ⟨1, { data := true }, 65535, 65535⟩ ∧
      fixtureC5.manualFlowControl = false ∧
      ([4, 1, 2, 3, 4, 5, 9, 9, 9, 9] : List Nat) ≠ [] ∧
      read1 [4, 1, 2, 3, 4, 5, 9, 9, 9, 9] + 1 ≤
        ([4, 1, 2, 3, 4, 5, 9, 9, 9, 9] : List Nat).length ∧
      4 ≤ fixtureC5.settingsRemote.max_frame_size) ∧
    ((cno_frame_handle_data fixtureC5
        ⟨CNO_FRAME_DATA, { padded := true }, 1,
          [4, 1, 2, 3, 4, 5, 9, 9, 9, 9]⟩).err = none ∧
      (cno_frame_handle_data fixtureC5
        ⟨CNO_FRAME_DATA, { padded := true }, 1,
          [4, 1, 2, 3, 4, 5, 9, 9, 9, 9]⟩).evs =
        [Ev.frame ⟨CNO_FRAME_WINDOW_UPDATE, {}, 0, i32 10⟩,
         Ev.messageData 1
           (if ({ padded := true } : CnoFlags).padded then
             (([4, 1, 2, 3, 4, 5, 9, 9, 9, 9] : List Nat).drop 1).take
               (([4, 1, 2, 3, 4, 5, 9, 9, 9, 9] : List Nat).length -
                 (read1 [4, 1, 2, 3, 4, 5, 9, 9, 9, 9] + 1))
            else [4, 1, 2, 3, 4, 5, 9, 9, 9, 9]),
         Ev.frame ⟨CNO_FRAME_WINDOW_UPDATE, {}, 1, i32 10⟩]) :=
  ⟨⟨by decide, by decide, by decide, by decide, by decide⟩,
    c5_data_window_update fixtureC5
      ⟨CNO_FRAME_DATA, { padded := true }, 1, [4, 1, 2, 3, 4, 5, 9, 9, 9, 9]⟩
      ⟨1, { data := true }, 65535, 65535⟩
      (by decide) (by decide) (by decide) (by decide) (by decide)
      (fun _ => by decide) (by decide)⟩

theorem splitGo_endStream_false {limit sid : Nat} {carryES : Bool} :
    ∀ {fuel typ : Nat} {flags : CnoFlags} {payload : List Nat},
    flags.endStream = false →
    ∀ g ∈ splitGo fuel limit typ flags sid payload false carryES,
      g.flags.endStream = false := by
  intro fuel
  induction fuel with
  | zero => intro typ flags payload hf g hg; simp [splitGo] at hg
  | succ n ih =>
    intro typ flags payload hf g hg
    unfold splitGo at hg
    by_cases hle : payload.length ≤ limit
    · rw [if_pos hle] at hg
      have : g = ⟨typ,
          if carryES then { flags with endStream := flags.endStream || false }
          else { flags with endHeaders := flags.endHeaders || false },
          sid, payload⟩ := by simpa using hg
      subst this
      by_cases hces : carryES <;> simp [hces, hf]
    · rw [if_neg hle] at hg
      rcases List.mem_cons.mp hg with h | h
      · subst h; exact hf
      · exact ih rfl g h

/-- `cno_frame_write` of a non-padded DATA frame never fails. -/
theorem frame_write_data_ok (c : CnoConn) (fl : CnoFlags) (sid : Nat)
    (payload : List Nat) (hp : fl.padded = false) :
    ∃ evs, cno_frame_write c ⟨CNO_FRAME_DATA, fl, sid, payload⟩ = .ok evs := by
  unfold cno_frame_write cno_frame_write_parts
  by_cases hle : payload.length ≤ c.settingsRemote.max_frame_size
  · rw [if_pos hle]
    exact ⟨_, rfl⟩
  · rw [if_neg hle, if_neg (by simpa using hp), if_pos rfl]
    exact ⟨_, rfl⟩

/-- DATA frames written without END_STREAM produce only frames without
END_STREAM. -/
theorem frame_write_data_no_es {c : CnoConn} {sid : Nat} {payload : List Nat}
    {evs : List Ev}
    (hw : cno_frame_write c ⟨CNO_FRAME_DATA, {}, sid, payload⟩ = .ok evs) :
    ∀ g : CnoFrame, Ev.frame g ∈ evs → g.flags.endStream = false := by
  unfold cno_frame_write cno_frame_write_parts at hw
  by_cases hle : payload.length ≤ c.settingsRemote.max_frame_size
  · rw [if_pos hle] at hw
    have hevs : evs = [Ev.frame ⟨CNO_FRAME_DATA, {}, sid, payload⟩] := by
      simpa [Except.map] using hw.symm
    subst hevs
    intro g hg
    have : g = ⟨CNO_FRAME_DATA, {}, sid, payload⟩ := by simpa using hg
    subst this
    rfl
  · rw [if_neg hle, if_neg (by simp), if_pos rfl] at hw
    have hevs : evs = (splitGo payload.length c.settingsRemote.max_frame_size
        CNO_FRAME_DATA { endStream := false } sid payload false true).map Ev.frame := by
      simpa [Except.map] using hw.symm
    subst hevs
    intro g hg
    obtain ⟨g2, hg2, heq⟩ := List.mem_map.mp hg
    injection heq with heq2
    subst heq2
    exact splitGo_endStream_false rfl g2 hg2

theorem rst_by_local_windowSend (c : CnoConn) (sid : Nat) :
    (cno_stream_rst_by_local c sid).1.windowSend = c.windowSend := by
  unfold cno_stream_rst_by_local cno_stream_rst cno_stream_free
  dsimp only
  split
  · rfl
  · unfold CnoConn.setStreamCount
    split <;> rfl

theorem write_rst_stream_err (c : CnoConn) (sid code : Nat)
    (h : 4 ≤ c.settingsRemote.max_frame_size) :
    (cno_frame_write_rst_stream c sid code).err = none := by
  unfold cno_frame_write_rst_stream
  rw [cno_frame_write_single _ _ (by rw [i32_length]; exact h)]
  dsimp only
  split <;> rfl

theorem discard_windowSend (c : CnoConn) (sid : Nat) :
    (cno_discard_remaining_payload c sid).conn.windowSend = c.windowSend := by
  unfold cno_discard_remaining_payload
  dsimp only
  split
  · exact rst_by_local_windowSend _ sid
  · split
    · exact (rst_stream_fields _ sid _).1
    · rfl

theorem discard_err (c : CnoConn) (sid : Nat)
    (h : 4 ≤ c.settingsRemote.max_frame_size) :
    (cno_discard_remaining_payload c sid).err = none := by
  unfold cno_discard_remaining_payload
  dsimp only
  split
  · rfl
  · split
    · exact write_rst_stream_err _ sid _ h
    · rfl

theorem discard_no_frames (c : CnoConn) (sid : Nat)
    (h : 4 ≤ c.settingsRemote.max_frame_size) :
    ∀ g : CnoFrame, Ev.frame g ∈ (cno_discard_remaining_payload c sid).evs →
      g.flags.endStream = false := by
  unfold cno_discard_remaining_payload
  dsimp only
  split
  · intro g hg
    simp [cno_stream_rst_by_local, cno_stream_rst] at hg
  · split
    · intro g hg
      revert hg
      unfold cno_frame_write_rst_stream
      rw [cno_frame_write_single _ _ (by rw [i32_length]; exact h)]
      dsimp only
      split
      · intro hg
        have : g = ⟨CNO_FRAME_RST_STREAM, {}, sid, i32 CNO_RST_NO_ERROR⟩ := by
          simpa using hg
        subst this
        rfl
      · intro hg
        have : g = ⟨CNO_FRAME_RST_STREAM, {}, sid, i32 CNO_RST_NO_ERROR⟩ := by
          simpa [cno_stream_rst_by_local, cno_stream_rst] using hg
        subst this
        rfl
    · intro g hg
      simp at hg

theorem clampLen_min (wa wb : Int) (n : Nat) :
    clampLen wb (clampLen wa n) = min n (min wa.toNat wb.toNat) := by
  unfold clampLen
  by_cases h1 : wa.toNat < n
  · rw [if_pos h1]
    by_cases h2 : wb.toNat < wa.toNat
    · rw [if_pos h2]; omega
    · rw [if_neg h2]; omega
  · rw [if_neg h1]
    by_cases h2 : wb.toNat < n
    · rw [if_pos h2]; omega
    · rw [if_neg h2]; omega

theorem clampFin_spec (wa wb : Int) (n : Nat) (fl : Bool) :
    clampFin wb (clampLen wa n) (clampFin wa n fl) = true ↔
      (fl = true ∧ min n (min wa.toNat wb.toNat) = n) := by
  unfold clampFin clampLen
  by_cases h1 : wa.toNat < n
  · rw [if_pos h1, if_pos h1]
    by_cases h2 : wb.toNat < wa.toNat
    · rw [if_pos h2]
      constructor
      · intro h; cases h
      · rintro ⟨-, hmin⟩; omega
    · rw [if_neg h2]
      constructor
      · intro h; cases h
      · rintro ⟨-, hmin⟩; omega
  · rw [if_neg h1, if_neg h1]
    by_cases h2 : wb.toNat < n
    · rw [if_pos h2]
      constructor
      · intro h; cases h
      · rintro ⟨-, hmin⟩; omega
    · rw [if_neg h2]
      constructor
      · intro h; exact ⟨h, by omega⟩
      · rintro ⟨h, -⟩; exact h

theorem write_data_fin_true (c : CnoConn) (sid : Nat) (evs : List Ev) (len : Nat)
    (h : 4 ≤ c.settingsRemote.max_frame_size) :
    (cno_write_data_fin c sid evs true len).ret = len ∧
    (cno_write_data_fin c sid evs true len).err = none ∧
    (cno_write_data_fin c sid evs true len).conn.windowSend = c.windowSend := by
  unfold cno_write_data_fin
  rw [if_pos rfl]
  dsimp only
  split
  case _ e heq =>
    rw [discard_err c sid h] at heq
    cases heq
  case _ heq =>
    exact ⟨rfl, rfl, discard_windowSend c sid⟩

theorem find_updateWindow (c : CnoConn) (id : Nat) (d : Int) :
    cno_stream_find
        (c.updateStream id (fun t => { t with windowSend := t.windowSend - d })) id =
      (cno_stream_find c id).map
        (fun v => if v.id = id then { v with windowSend := v.windowSend - d } else v) :=
  find_updateStream c id _ (fun _ => rfl)

set_option maxHeartbeats 1600000 in
/-- Claim C6: for every `cno_write_data` call in HTTP/2 mode on a stream
that accepts WRITE_DATA (with non-negative windows): the consumed length is
`min(length, conn.window_send, stream.window_send)`; the call succeeds; the
connection send window is decremented by the consumed length; unless this
was an unclamped final write (whose `discard_remaining_payload` may destroy
the stream), the stream's send window is decremented by the consumed
length; and if the clamp shortened the write, no emitted frame carries
END_STREAM (`final` is treated as false).  In particular the call returns 0
when both windows are exhausted. -/
theorem c6_write_data_clamp (c : CnoConn) (sid : Nat) (data : List Nat)
    (final : Bool) (s : CnoStream)
    (h2 : cno_connection_is_http2 c = true)
    (hfind : cno_stream_find c sid = some s)
    (hacc : s.accept.writeData = true)
    (hcw : 0 ≤ c.windowSend) (hsw : 0 ≤ s.windowSend)
    (hlimit : 4 ≤ c.settingsRemote.max_frame_size) :
    (cno_write_data c sid data final).ret =
      min data.length (min c.windowSend.toNat s.windowSend.toNat) ∧
    (cno_write_data c sid data final).err = none ∧
    (cno_write_data c sid data final).conn.windowSend =
      c.windowSend - min data.length (min c.windowSend.toNat s.windowSend.toNat) ∧
    (¬(final = true ∧
        min data.length (min c.windowSend.toNat s.windowSend.toNat) = data.length) →
      cno_stream_find (cno_write_data c sid data final).conn sid =
        some { s with
          windowSend := s.windowSend -
            min data.length (min c.windowSend.toNat s.windowSend.toNat) }) ∧
    (min data.length (min c.windowSend.toNat s.windowSend.toNat) < data.length →
      ∀ g : CnoFrame, Ev.frame g ∈ (cno_write_data c sid data final).evs →
        g.flags.endStream = false) := by
  have hnun : ¬ c.state = ConnState.undefined := by
    intro h
    unfold cno_connection_is_http2 at h2
    rw [h] at h2
    simp at h2
  have hnup : ¬ c.state = ConnState.unknownProtocol := by
    intro h
    unfold cno_connection_is_http2 at h2
    rw [h] at h2
    simp at h2
  have hsid : s.id = sid := by
    unfold cno_stream_find at hfind
    have := List.find?_some hfind
    simpa using this
  unfold cno_write_data
  rw [if_neg hnun, hfind]
  dsimp only
  rw [if_neg (by simp [hacc]), if_neg hnup, if_neg (by simp [h2]),
    if_neg (by push_neg; exact ⟨hcw, hsw⟩)]
  rw [clampLen_min]
  by_cases hzf : min data.length (min c.windowSend.toNat s.windowSend.toNat) = 0 ∧
      clampFin s.windowSend (clampLen c.windowSend data.length)
        (clampFin c.windowSend data.length final) = false
  · rw [if_pos hzf]
    have hz := hzf.1
    refine ⟨by dsimp only; omega, rfl, by dsimp only; omega, fun hnf => ?_,
      fun hlt g hg => ?_⟩
    · rw [hfind]
      have : s.windowSend - (min data.length
          (min c.windowSend.toNat s.windowSend.toNat) : Int) = s.windowSend := by
        omega
      rw [hz]
      congr 1
      cases s
      simp
    · cases hg
  · rw [if_neg hzf]
    have hcases : clampFin s.windowSend (clampLen c.windowSend data.length)
        (clampFin c.windowSend data.length final) = true ∨
        (clampFin s.windowSend (clampLen c.windowSend data.length)
          (clampFin c.windowSend data.length final) = false ∧
          min data.length (min c.windowSend.toNat s.windowSend.toNat) ≠ 0) := by
      by_cases hb : clampFin s.windowSend (clampLen c.windowSend data.length)
          (clampFin c.windowSend data.length final) = true
      · exact Or.inl hb
      · refine Or.inr ⟨by simpa using hb, fun hz => hzf ⟨hz, by simpa using hb⟩⟩
    rcases hcases with hfin | ⟨hfin, hnz⟩
    · -- unclamped final write: DATA with END_STREAM, then discard
      obtain ⟨hfl, hret⟩ := (clampFin_spec c.windowSend s.windowSend
        data.length final).mp hfin
      rw [hfin]
      obtain ⟨evs, hw⟩ := frame_write_data_ok c { endStream := true } sid
        (data.take (min data.length (min c.windowSend.toNat s.windowSend.toNat))) rfl
      rw [if_pos rfl]
      rw [hw]
      dsimp only
      refine ⟨(write_data_fin_true _ sid evs _ (by exact hlimit)).1,
        (write_data_fin_true _ sid evs _ (by exact hlimit)).2.1,
        ((write_data_fin_true _ sid evs _ (by exact hlimit)).2.2).trans (by rfl),
        fun hnf => absurd (And.intro hfl hret) hnf,
        fun hlt _ _ => absurd hret (Nat.ne_of_lt hlt)⟩
    · -- final forced off (or already off): plain DATA, no discard
      rw [hfin]
      obtain ⟨evs, hw⟩ := frame_write_data_ok c {} sid
        (data.take (min data.length (min c.windowSend.toNat s.windowSend.toNat))) rfl
      rw [if_neg Bool.false_ne_true]
      rw [hw]
      dsimp only
      unfold cno_write_data_fin
      rw [if_neg (by simp)]
      dsimp only
      refine ⟨rfl, rfl, rfl, fun _ => ?_, fun _ => ?_⟩
      · rw [find_updateWindow]
        show (cno_stream_find c sid).map _ = _
        rw [hfind]
        dsimp only [Option.map]
        rw [if_pos hsid]
      · exact frame_write_data_no_es hw

def fixtureC6 : CnoConn :=
  { cno_connection_init true with
    state := ConnState.ready
    streams := [⟨1, { writeData := true }, 65535, 3⟩] }

/-- Witness for `c6_write_data_clamp`: writing 5 bytes with `final = true`
on a stream whose send window is 3 consumes exactly 3 bytes, succeeds,
decrements both windows by 3, and drops END_STREAM from the emitted
frames. -/
theorem c6_write_data_clamp_witness :
    (cno_connection_is_http2 fixtureC6 = true ∧
      cno_stream_find fixtureC6 1 =
        some ⟨1, { writeData := true }, 65535, 3⟩ ∧
      (⟨1, { writeData := true }, 65535, 3⟩ : CnoStream).accept.writeData = true ∧
      (0 : Int) ≤ fixtureC6.windowSend ∧
      (0 : Int) ≤ (⟨1, { writeData := true }, 65535, 3⟩ : CnoStream).windowSend ∧
      4 ≤ fixtureC6.settingsRemote.max_frame_size) ∧
    ((cno_write_data fixtureC6 1 [10, 20, 30, 40, 50] true).ret =
      min ([10, 20, 30, 40, 50] : List Nat).length
        (min fixtureC6.windowSend.toNat
          (⟨1, { writeData := true }, 65535, 3⟩ : CnoStream).windowSend.toNat) ∧
    (cno_write_data fixtureC6 1 [10, 20, 30, 40, 50] true).err = none ∧
    (cno_write_data fixtureC6 1 [10, 20, 30, 40, 50] true).conn.windowSend =
      fixtureC6.windowSend -
        min ([10, 20, 30, 40, 50] : List Nat).length
          (min fixtureC6.windowSend.toNat
            (⟨1, { writeData := true }, 65535, 3⟩ : CnoStream).windowSend.toNat) ∧
    (¬(true = true ∧
        min ([10, 20, 30, 40, 50] : List Nat).length
          (min fixtureC6.windowSend.toNat
            (⟨1, { writeData := true }, 65535, 3⟩ : CnoStream).windowSend.toNat) =
          ([10, 20, 30, 40, 50] : List Nat).length) →
      cno_stream_find (cno_write_data fixtureC6 1 [10, 20, 30, 40, 50] true).conn 1 =
        some { (⟨1, { writeData := true }, 65535, 3⟩ : CnoStream) with
          windowSend := (⟨1, { writeData := true }, 65535, 3⟩ : CnoStream).windowSend -
            min ([10, 20, 30, 40, 50] : List Nat).length
              (min fixtureC6.windowSend.toNat
                (⟨1, { writeData := true }, 65535, 3⟩ : CnoStream).windowSend.toNat) }) ∧
    (min ([10, 20, 30, 40, 50] : List Nat).length
        (min fixtureC6.windowSend.toNat
          (⟨1, { writeData := true }, 65535, 3⟩ : CnoStream).windowSend.toNat) <
        ([10, 20, 30, 40, 50] : List Nat).length →
      ∀ g : CnoFrame,
        Ev.frame g ∈ (cno_write_data fixtureC6 1 [10, 20, 30, 40, 50] true).evs →
          g.flags.endStream = false)) :=
  ⟨⟨by decide, by decide, by decide, by decide, by decide, by decide⟩,
    c6_write_data_clamp fixtureC6 1 [10, 20, 30, 40, 50] true
      ⟨1, { writeData := true }, 65535, 3⟩
      (by decide) (by decide) (by decide) (by decide) (by decide) (by decide)⟩

theorem splitGo_flatten {limit sid : Nat} {lastOn carryES : Bool} (hl : 1 ≤ limit) :
    ∀ {fuel typ : Nat} {flags : CnoFlags} {payload : List Nat},
    payload.length ≤ fuel →
    ((splitGo fuel limit typ flags sid payload lastOn carryES).map
      (fun g => g.payload)).flatten = payload := by
  intro fuel
  induction fuel with
  | zero =>
    intro typ flags payload hf
    cases payload with
    | nil => rfl
    | cons a l => simp at hf
  | succ n ih =>
    intro typ flags payload hf
    unfold splitGo
    by_cases hle : payload.length ≤ limit
    · rw [if_pos hle]
      simp
    · rw [if_neg hle]
      have hfu : (payload.drop limit).length ≤ n := by
        simp only [List.length_drop]
        omega
      rw [List.map_cons, List.flatten_cons, ih hfu]
      exact List.take_append_drop limit payload

theorem splitGo_size {limit sid : Nat} {lastOn carryES : Bool} (hl : 1 ≤ limit) :
    ∀ {fuel typ : Nat} {flags : CnoFlags} {payload : List Nat},
    payload.length ≤ fuel →
    ∀ g ∈ splitGo fuel limit typ flags sid payload lastOn carryES,
      g.payload.length ≤ limit := by
  intro fuel
  induction fuel with
  | zero => intro typ flags payload hf g hg; simp [splitGo] at hg
  | succ n ih =>
    intro typ flags payload hf g hg
    unfold splitGo at hg
    by_cases hle : payload.length ≤ limit
    · rw [if_pos hle] at hg
      have : g = ⟨typ,
          if carryES then { flags with endStream := flags.endStream || lastOn }
          else { flags with endHeaders := flags.endHeaders || lastOn },
          sid, payload⟩ := by simpa using hg
      subst this
      exact hle
    · rw [if_neg hle] at hg
      rcases List.mem_cons.mp hg with h | h
      · subst h
        simp only [List.length_take]
        omega
      · refine ih ?_ g h
        simp only [List.length_drop]
        omega

theorem splitGo_data_typ {limit sid : Nat} {lastOn carryES : Bool} :
    ∀ {fuel : Nat} {flags : CnoFlags} {payload : List Nat},
    ∀ g ∈ splitGo fuel limit CNO_FRAME_DATA flags sid payload lastOn carryES,
      g.typ = CNO_FRAME_DATA := by
  intro fuel
  induction fuel with
  | zero => intro flags payload g hg; simp [splitGo] at hg
  | succ n ih =>
    intro flags payload g hg
    unfold splitGo at hg
    by_cases hle : payload.length ≤ limit
    · rw [if_pos hle] at hg
      have : g = ⟨CNO_FRAME_DATA,
          if carryES then { flags with endStream := flags.endStream || lastOn }
          else { flags with endHeaders := flags.endHeaders || lastOn },
          sid, payload⟩ := by simpa using hg
      subst this
      rfl
    · rw [if_neg hle, if_neg (by decide)] at hg
      rcases List.mem_cons.mp hg with h | h
      · subst h; rfl
      · exact ih g h

theorem splitGo_cont_typ {limit sid : Nat} {lastOn carryES : Bool} :
    ∀ {fuel : Nat} {flags : CnoFlags} {payload : List Nat},
    ∀ g ∈ splitGo fuel limit CNO_FRAME_CONTINUATION flags sid payload lastOn carryES,
      g.typ = CNO_FRAME_CONTINUATION := by
  intro fuel
  induction fuel with
  | zero => intro flags payload g hg; simp [splitGo] at hg
  | succ n ih =>
    intro flags payload g hg
    unfold splitGo at hg
    by_cases hle : payload.length ≤ limit
    · rw [if_pos hle] at hg
      have : g = ⟨CNO_FRAME_CONTINUATION,
          if carryES then { flags with endStream := flags.endStream || lastOn }
          else { flags with endHeaders := flags.endHeaders || lastOn },
          sid, payload⟩ := by simpa using hg
      subst this
      rfl
    · rw [if_neg hle, if_pos (by decide)] at hg
      rcases List.mem_cons.mp hg with h | h
      · subst h; rfl
      · exact ih g h

theorem splitGo_es_data {limit sid : Nat} {lastOn : Bool} (hl : 1 ≤ limit) :
    ∀ {fuel typ : Nat} {flags : CnoFlags} {payload : List Nat},
    flags.endStream = false → payload.length ≤ fuel → 1 ≤ fuel →
    ∃ n, (splitGo fuel limit typ flags sid payload lastOn true).map
      (fun g => g.flags.endStream) = List.replicate n false ++ [lastOn] := by
  intro fuel
  induction fuel with
  | zero => intro typ flags payload hes hf h1; omega
  | succ n ih =>
    intro typ flags payload hes hf h1
    unfold splitGo
    by_cases hle : payload.length ≤ limit
    · rw [if_pos hle]
      exact ⟨0, by simp [hes]⟩
    · rw [if_neg hle]
      obtain ⟨m, hm⟩ := @ih (if typ ≠ CNO_FRAME_DATA then CNO_FRAME_CONTINUATION else typ)
        { flags with priorityF := false, endStream := false } (payload.drop limit)
        rfl (by simp only [List.length_drop]; omega) (by omega)
      refine ⟨m + 1, ?_⟩
      rw [List.map_cons, hm, hes, List.replicate_succ]
      rfl

theorem splitGo_eh {limit sid : Nat} {lastOn : Bool} (hl : 1 ≤ limit) :
    ∀ {fuel typ : Nat} {flags : CnoFlags} {payload : List Nat},
    flags.endHeaders = false → payload.length ≤ fuel → 1 ≤ fuel →
    ∃ n, (splitGo fuel limit typ flags sid payload lastOn false).map
      (fun g => g.flags.endHeaders) = List.replicate n false ++ [lastOn] := by
  intro fuel
  induction fuel with
  | zero => intro typ flags payload heh hf h1; omega
  | succ n ih =>
    intro typ flags payload heh hf h1
    unfold splitGo
    by_cases hle : payload.length ≤ limit
    · rw [if_pos hle]
      exact ⟨0, by simp [heh]⟩
    · rw [if_neg hle]
      obtain ⟨m, hm⟩ := @ih (if typ ≠ CNO_FRAME_DATA then CNO_FRAME_CONTINUATION else typ)
        { flags with priorityF := false, endStream := false } (payload.drop limit)
        heh (by simp only [List.length_drop]; omega) (by omega)
      refine ⟨m + 1, ?_⟩
      rw [List.map_cons, hm, heh, List.replicate_succ]
      rfl

theorem splitGo_es_head {limit sid : Nat} {lastOn : Bool} (hl : 1 ≤ limit) :
    ∀ {fuel typ : Nat} {flags : CnoFlags} {payload : List Nat},
    payload.length ≤ fuel → 1 ≤ fuel →
    ∃ n, (splitGo fuel limit typ flags sid payload lastOn false).map
      (fun g => g.flags.endStream) = flags.endStream :: List.replicate n false := by
  intro fuel
  induction fuel with
  | zero => intro typ flags payload hf h1; omega
  | succ n ih =>
    intro typ flags payload hf h1
    unfold splitGo
    by_cases hle : payload.length ≤ limit
    · rw [if_pos hle]
      exact ⟨0, by simp⟩
    · rw [if_neg hle]
      obtain ⟨m, hm⟩ := @ih (if typ ≠ CNO_FRAME_DATA then CNO_FRAME_CONTINUATION else typ)
        { flags with priorityF := false, endStream := false } (payload.drop limit)
        (by simp only [List.length_drop]; omega) (by omega)
      refine ⟨m + 1, ?_⟩
      rw [List.map_cons, hm, List.replicate_succ]

theorem splitGo_priority {limit sid : Nat} {lastOn carryES : Bool} (hl : 1 ≤ limit) :
    ∀ {fuel typ : Nat} {flags : CnoFlags} {payload : List Nat},
    payload.length ≤ fuel → 1 ≤ fuel →
    ∃ n, (splitGo fuel limit typ flags sid payload lastOn carryES).map
      (fun g => g.flags.priorityF) = flags.priorityF :: List.replicate n false := by
  intro fuel
  induction fuel with
  | zero => intro typ flags payload hf h1; omega
  | succ n ih =>
    intro typ flags payload hf h1
    unfold splitGo
    by_cases hle : payload.length ≤ limit
    · rw [if_pos hle]
      refine ⟨0, ?_⟩
      by_cases hces : carryES <;> simp [hces]
    · rw [if_neg hle]
      obtain ⟨m, hm⟩ := @ih (if typ ≠ CNO_FRAME_DATA then CNO_FRAME_CONTINUATION else typ)
        { flags with priorityF := false, endStream := false } (payload.drop limit)
        (by simp only [List.length_drop]; omega) (by omega)
      refine ⟨m + 1, ?_⟩
      rw [List.map_cons, hm, List.replicate_succ]

/-- Counterexample to claim C4 as stated: splitting a DATA frame that
carries the PRIORITY flag keeps PRIORITY on the *first* part (the C code
only clears `CNO_FLAG_PRIORITY` from the second part onward), so it is not
true that "all but the last carry neither END_STREAM nor PRIORITY". -/
theorem c4_split_counterexample :
    cno_frame_write_parts 1 ⟨CNO_FRAME_DATA, { priorityF := true }, 1, [7, 8]⟩ =
      .ok [⟨CNO_FRAME_DATA, { priorityF := true }, 1, [7]⟩,
        ⟨CNO_FRAME_DATA, {}, 1, [8]⟩] := by
  rfl

set_option maxHeartbeats 800000 in
/-- Claim C4, amended: splitting an oversized unpadded frame.  A DATA frame
becomes consecutive DATA frames of at most `max_frame_size` bytes whose
payloads concatenate to the original; END_STREAM appears only on the last
part (and only if the original carried it), while PRIORITY — contrary to
the claim — is retained on the *first* part and cleared from the rest.  A
HEADERS or PUSH_PROMISE frame becomes a first frame of the original type
followed by CONTINUATION frames; only the last part carries END_HEADERS
(iff the original did), END_STREAM and PRIORITY travel only with the first
part, and the payloads concatenate to the original. -/
theorem c4_frame_write_split (limit : Nat) (f : CnoFrame)
    (hbig : limit < f.payload.length) (hl : 1 ≤ limit)
    (hpad : f.flags.padded = false) :
    (f.typ = CNO_FRAME_DATA →
      ∃ parts : List CnoFrame,
        cno_frame_write_parts limit f = .ok parts ∧
        (parts.map (fun g => g.payload)).flatten = f.payload ∧
        (∀ g ∈ parts, g.typ = CNO_FRAME_DATA ∧ g.payload.length ≤ limit) ∧
        (∃ n, parts.map (fun g => g.flags.endStream) =
          List.replicate n false ++ [f.flags.endStream]) ∧
        (∃ n, parts.map (fun g => g.flags.priorityF) =
          f.flags.priorityF :: List.replicate n false)) ∧
    (f.typ = CNO_FRAME_HEADERS ∨ f.typ = CNO_FRAME_PUSH_PROMISE →
      ∃ parts : List CnoFrame,
        cno_frame_write_parts limit f = .ok parts ∧
        (parts.map (fun g => g.payload)).flatten = f.payload ∧
        (∀ g ∈ parts, g.payload.length ≤ limit) ∧
        (∃ rest, parts =
            ⟨f.typ, { f.flags with endHeaders := false }, f.stream,
              f.payload.take limit⟩ :: rest ∧
          ∀ g ∈ rest, g.typ = CNO_FRAME_CONTINUATION) ∧
        (∃ n, parts.map (fun g => g.flags.endHeaders) =
          List.replicate n false ++ [f.flags.endHeaders]) ∧
        (∃ n, parts.map (fun g => g.flags.endStream) =
          f.flags.endStream :: List.replicate n false) ∧
        (∃ n, parts.map (fun g => g.flags.priorityF) =
          f.flags.priorityF :: List.replicate n false)) := by
  have hnle : ¬ f.payload.length ≤ limit := by omega
  constructor
  · intro hd
    refine ⟨splitGo f.payload.length limit f.typ { f.flags with endStream := false }
      f.stream f.payload f.flags.endStream true, ?_, ?_, ?_, ?_, ?_⟩
    · unfold cno_frame_write_parts
      rw [if_neg hnle, if_neg (by simp [hpad]), if_pos hd]
    · exact splitGo_flatten hl (le_refl _)
    · intro g hg
      refine ⟨?_, splitGo_size hl (le_refl _) g hg⟩
      rw [hd] at hg
      exact splitGo_data_typ g hg
    · exact splitGo_es_data hl rfl (le_refl _) (by omega)
    · exact splitGo_priority hl (le_refl _) (by omega)
  · intro hh
    have hnd : ¬ f.typ = CNO_FRAME_DATA := by
      rcases hh with h | h <;> rw [h] <;> decide
    refine ⟨splitGo f.payload.length limit f.typ { f.flags with endHeaders := false }
      f.stream f.payload f.flags.endHeaders false, ?_, ?_, ?_, ?_, ?_, ?_, ?_⟩
    · unfold cno_frame_write_parts
      rw [if_neg hnle, if_neg (by simp [hpad]), if_neg hnd, if_pos hh]
    · exact splitGo_flatten hl (le_refl _)
    · intro g hg
      exact splitGo_size hl (le_refl _) g hg
    · rw [show f.payload.length = (f.payload.length - 1) + 1 from by omega]
      unfold splitGo
      rw [if_neg hnle]
      refine ⟨_, rfl, ?_⟩
      intro g hg
      rw [if_pos hnd] at hg
      exact splitGo_cont_typ g hg
    · exact splitGo_eh hl rfl (le_refl _) (by omega)
    · exact splitGo_es_head hl (le_refl _) (by omega)
    · exact splitGo_priority hl (le_refl _) (by omega)

def frameC4 : CnoFrame :=
  ⟨CNO_FRAME_HEADERS, { endStream := true, endHeaders := true, priorityF := true },
    1, [7, 8]⟩

/-- Witness for `c4_frame_write_split`: a 2-byte HEADERS frame carrying
END_STREAM, END_HEADERS and PRIORITY, split at limit 1. -/
theorem c4_frame_write_split_witness :
    (1 < frameC4.payload.length ∧ 1 ≤ 1 ∧ frameC4.flags.padded = false) ∧
    ((frameC4.typ = CNO_FRAME_DATA →
      ∃ parts : List CnoFrame,
        cno_frame_write_parts 1 frameC4 = .ok parts ∧
        (parts.map (fun g => g.payload)).flatten = frameC4.payload ∧
        (∀ g ∈ parts, g.typ = CNO_FRAME_DATA ∧ g.payload.length ≤ 1) ∧
        (∃ n, parts.map (fun g => g.flags.endStream) =
          List.replicate n false ++ [frameC4.flags.endStream]) ∧
        (∃ n, parts.map (fun g => g.flags.priorityF) =
          frameC4.flags.priorityF :: List.replicate n false)) ∧
    (frameC4.typ = CNO_FRAME_HEADERS ∨ frameC4.typ = CNO_FRAME_PUSH_PROMISE →
      ∃ parts : List CnoFrame,
        cno_frame_write_parts 1 frameC4 = .ok parts ∧
        (parts.map (fun g => g.payload)).flatten = frameC4.payload ∧
        (∀ g ∈ parts, g.payload.length ≤ 1) ∧
        (∃ rest, parts =
            ⟨frameC4.typ, { frameC4.flags with endHeaders := false }, frameC4.stream,
              frameC4.payload.take 1⟩ :: rest ∧
          ∀ g ∈ rest, g.typ = CNO_FRAME_CONTINUATION) ∧
        (∃ n, parts.map (fun g => g.flags.endHeaders) =
          List.replicate n false ++ [frameC4.flags.endHeaders]) ∧
        (∃ n, parts.map (fun g => g.flags.endStream) =
          frameC4.flags.endStream :: List.replicate n false) ∧
        (∃ n, parts.map (fun g => g.flags.priorityF) =
          frameC4.flags.priorityF :: List.replicate n false))) :=
  ⟨⟨by decide, by decide, by decide⟩,
    c4_frame_write_split 1 frameC4 (by decide) (by decide) (by decide)⟩

/-! ### Claim C7: request header-block validation -/

/-- Number of headers with the given name. -/
def countName (hs : List CnoHeader) (n : String) : Nat :=
  (hs.filter (fun h => h.name = n)).length

/-- The pseudo-headers the request branch of the scan recognizes. -/
def knownReqPseudo (h : CnoHeader) : Bool :=
  decide (h.name = ":method") || decide (h.name = ":path") ||
  decide (h.name = ":authority") || decide (h.name = ":scheme")

/-- The claim's validity condition for a request header block (with the
`:authority` multiplicity clause removed — the code accepts any number of
`:authority` headers): exactly one `:method`, exactly one `:path` with a
non-empty value, exactly one `:scheme`, no uppercase ASCII in any name, no
pseudo-header after a regular one, and no unknown pseudo-header. -/
def c7RequestBlockOk (headers : List CnoHeader) : Bool :=
  let pseudos := headers.takeWhile isPseudo
  let regular := headers.drop pseudos.length
  decide (countName headers ":method" = 1) &&
  decide (countName headers ":path" = 1) &&
  decide (countName headers ":scheme" = 1) &&
  headers.all (fun h => decide (h.name = ":path" → h.value ≠ "")) &&
  headers.all (fun h => ! hasUpper h.name) &&
  regular.all (fun h => ! isPseudo h) &&
  pseudos.all knownReqPseudo

theorem countName_cons_pos (h : CnoHeader) (l : List CnoHeader) (n : String)
    (he : h.name = n) : countName (h :: l) n = countName l n + 1 := by
  simp [countName, List.filter_cons, he]

theorem countName_cons_neg (h : CnoHeader) (l : List CnoHeader) (n : String)
    (he : ¬ h.name = n) : countName (h :: l) n = countName l n := by
  simp [countName, List.filter_cons, he]

theorem countName_append (a b : List CnoHeader) (n : String) :
    countName (a ++ b) n = countName a n + countName b n := by
  simp [countName, List.filter_append]

theorem countName_reverse (l : List CnoHeader) (n : String) :
    countName l.reverse n = countName l n := by
  simp [countName, List.filter_reverse]

/-- Invariant of the (request, non-trailers) pseudo-header scan: duplicates
of `:path`, `:method` and `:scheme` are rejected, only the four known
pseudo-headers are accepted, the accumulated `:path` value is the value of
any `:path` header processed, and a `:path` already present is preserved. -/
theorem scanGo_req_inv :
    ∀ (l : List CnoHeader) (acc acc2 : PseudoAcc),
    scanGo false false l acc = some acc2 →
    (countName l ":path" + (if acc.path.isSome then 1 else 0) =
      (if acc2.path.isSome then 1 else 0)) ∧
    (countName l ":method" + (if acc.method.isSome then 1 else 0) =
      (if acc2.method.isSome then 1 else 0)) ∧
    (countName l ":scheme" + (if acc.hasScheme then 1 else 0) =
      (if acc2.hasScheme then 1 else 0)) ∧
    (∀ h ∈ l, knownReqPseudo h = true) ∧
    (∀ h ∈ l, h.name = ":path" → acc2.path = some h.value) ∧
    (∀ v, acc.path = some v → acc2.path = some v) := by
  intro l
  induction l with
  | nil =>
    intro acc acc2 hsc
    unfold scanGo at hsc
    injection hsc with he
    subst he
    exact ⟨by simp [countName], by simp [countName], by simp [countName],
      by simp, by simp, fun v hv => hv⟩
  | cons h l ih =>
    intro acc acc2 hsc
    unfold scanGo at hsc
    cases hstep : pseudoStep false false h acc with
    | none => rw [hstep] at hsc; cases hsc
    | some acc1 =>
      rw [hstep] at hsc
      unfold pseudoStep at hstep
      rw [if_neg (by simp), if_neg (by simp)] at hstep
      by_cases hp : h.name = ":path"
      · rw [if_pos hp] at hstep
        by_cases hps : acc.path.isSome
        · rw [if_pos hps] at hstep; cases hstep
        · rw [if_neg hps] at hstep
          injection hstep with he
          subst he
          obtain ⟨i1, i2, i3, i4, i5, i6⟩ := ih _ acc2 hsc
          refine ⟨?_, ?_, ?_, ?_, ?_, ?_⟩
          · rw [countName_cons_pos _ _ _ hp, if_neg hps]
            exact i1
          · rw [countName_cons_neg _ _ _ (by rw [hp]; decide)]
            exact i2
          · rw [countName_cons_neg _ _ _ (by rw [hp]; decide)]
            exact i3
          · intro h2 hm
            rcases List.mem_cons.mp hm with he2 | hm2
            · subst he2; simp [knownReqPseudo, hp]
            · exact i4 h2 hm2
          · intro h2 hm hname
            rcases List.mem_cons.mp hm with he2 | hm2
            · subst he2; exact i6 _ rfl
            · exact i5 h2 hm2 hname
          · intro v hv
            exact absurd (by rw [hv]; rfl) hps
      · rw [if_neg hp] at hstep
        by_cases hme : h.name = ":method"
        · rw [if_pos hme] at hstep
          by_cases hms : acc.method.isSome
          · rw [if_pos hms] at hstep; cases hstep
          · rw [if_neg hms] at hstep
            injection hstep with he
            subst he
            obtain ⟨i1, i2, i3, i4, i5, i6⟩ := ih _ acc2 hsc
            refine ⟨?_, ?_, ?_, ?_, ?_, ?_⟩
            · rw [countName_cons_neg _ _ _ hp]
              exact i1
            · rw [countName_cons_pos _ _ _ hme, if_neg hms]
              exact i2
            · rw [countName_cons_neg _ _ _ (by rw [hme]; decide)]
              exact i3
            · intro h2 hm
              rcases List.mem_cons.mp hm with he2 | hm2
              · subst he2; simp [knownReqPseudo, hme]
              · exact i4 h2 hm2
            · intro h2 hm hname
              rcases List.mem_cons.mp hm with he2 | hm2
              · subst he2; exact absurd hname hp
              · exact i5 h2 hm2 hname
            · intro v hv
              exact i6 v hv
        · rw [if_neg hme] at hstep
          by_cases hau : h.name = ":authority"
          · rw [if_pos hau] at hstep
            injection hstep with he
            subst he
            obtain ⟨i1, i2, i3, i4, i5, i6⟩ := ih _ acc2 hsc
            refine ⟨?_, ?_, ?_, ?_, ?_, ?_⟩
            · rw [countName_cons_neg _ _ _ hp]
              exact i1
            · rw [countName_cons_neg _ _ _ hme]
              exact i2
            · rw [countName_cons_neg _ _ _ (by rw [hau]; decide)]
              exact i3
            · intro h2 hm
              rcases List.mem_cons.mp hm with he2 | hm2
              · subst he2; simp [knownReqPseudo, hau]
              · exact i4 h2 hm2
            · intro h2 hm hname
              rcases List.mem_cons.mp hm with he2 | hm2
              · subst he2; exact absurd hname hp
              · exact i5 h2 hm2 hname
            · intro v hv
              exact i6 v hv
          · rw [if_neg hau] at hstep
            by_cases hsch : h.name = ":scheme"
            · rw [if_pos hsch] at hstep
              by_cases hhs : acc.hasScheme
              · rw [if_pos hhs] at hstep; cases hstep
              · rw [if_neg hhs] at hstep
                injection hstep with he
                subst he
                obtain ⟨i1, i2, i3, i4, i5, i6⟩ := ih _ acc2 hsc
                refine ⟨?_, ?_, ?_, ?_, ?_, ?_⟩
                · rw [countName_cons_neg _ _ _ hp]
                  exact i1
                · rw [countName_cons_neg _ _ _ hme]
                  exact i2
                · rw [countName_cons_pos _ _ _ hsch, if_neg hhs]
                  exact i3
                · intro h2 hm
                  rcases List.mem_cons.mp hm with he2 | hm2
                  · subst he2; simp [knownReqPseudo, hsch]
                  · exact i4 h2 hm2
                · intro h2 hm hname
                  rcases List.mem_cons.mp hm with he2 | hm2
                  · subst he2; exact absurd hname hp
                  · exact i5 h2 hm2 hname
                · intro v hv
                  exact i6 v hv
            · rw [if_neg hsch] at hstep
              cases hstep

theorem drop_len_takeWhile {α : Type} (p : α → Bool) (l : List α) :
    l.drop (l.takeWhile p).length = l.dropWhile p := by
  induction l with
  | nil => rfl
  | cons a l ih =>
    by_cases hp : p a
    · simp [List.takeWhile_cons, List.dropWhile_cons, hp, ih]
    · simp [List.takeWhile_cons, List.dropWhile_cons, hp]

theorem hasUpper_of_known (h : CnoHeader) (hk : knownReqPseudo h = true) :
    hasUpper h.name = false := by
  simp only [knownReqPseudo, Bool.or_eq_true, decide_eq_true_eq] at hk
  rcases hk with ((hk | hk) | hk) | hk <;> rw [hk] <;> rfl

/-- If the request-mode validation accepts a header block, the block
satisfies the claim's (amended) validity condition. -/
theorem c7_of_validate {headers : List CnoHeader} {msg : CnoMessage}
    (hv : validateMessage false false headers = some msg) :
    c7RequestBlockOk headers = true := by
  unfold validateMessage at hv
  dsimp only at hv
  cases hscan : scanGo false false (headers.takeWhile isPseudo).reverse {} with
  | none => rw [hscan] at hv; cases hv
  | some acc =>
    rw [hscan] at hv
    dsimp only at hv
    by_cases hreg : regularOk (headers.drop (headers.takeWhile isPseudo).length) = true
    · rw [if_neg (by simp [hreg])] at hv
      rw [if_neg (by simp), if_neg (by simp)] at hv
      cases hpath : acc.path with
      | none =>
        rw [hpath] at hv
        dsimp only at hv
        cases hv
      | some path =>
        rw [hpath] at hv
        cases hmeth : acc.method with
        | none =>
          rw [hmeth] at hv
          dsimp only at hv
          cases hv
        | some method =>
          rw [hmeth] at hv
          dsimp only at hv
          by_cases hcond : path = "" ∨ method = "" ∨ (!acc.hasScheme) = true
          · rw [if_pos hcond] at hv
            cases hv
          · rw [if_neg hcond] at hv
            push_neg at hcond
            obtain ⟨hpne, hmne, hsch⟩ := hcond
            have hhs : acc.hasScheme = true := by
              cases hb : acc.hasScheme
              · exact absurd (by rw [hb]; rfl) hsch
              · rfl
            obtain ⟨i1, i2, i3, i4, i5, i6⟩ := scanGo_req_inv _ {} acc hscan
            have hsplit : headers.takeWhile isPseudo ++
                headers.drop (headers.takeWhile isPseudo).length = headers := by
              rw [drop_len_takeWhile]
              exact List.takeWhile_append_dropWhile isPseudo headers
            have hregF : ∀ h ∈ headers.drop (headers.takeWhile isPseudo).length,
                isPseudo h = false ∧ hasUpper h.name = false := by
              simpa [regularOk] using hreg
            have hcount0 : ∀ n : String, isPseudo ⟨n, ""⟩ = true →
                countName (headers.drop (headers.takeWhile isPseudo).length) n = 0 := by
              intro n hn
              unfold countName
              rw [List.length_eq_zero, List.filter_eq_nil_iff]
              intro h hh
              simp only [decide_eq_true_eq]
              intro he
              have hp2 : isPseudo h = true := by
                have hn2 := hn
                unfold isPseudo at hn2 ⊢
                rw [he]
                exact hn2
              have hf := (hregF h hh).1
              rw [hp2] at hf
              cases hf
            have cp : countName (headers.takeWhile isPseudo) ":path" = 1 := by
              rw [← countName_reverse]
              have := i1
              rw [hpath] at this
              simpa using this
            have cm : countName (headers.takeWhile isPseudo) ":method" = 1 := by
              rw [← countName_reverse]
              have := i2
              rw [hmeth] at this
              simpa using this
            have cs : countName (headers.takeWhile isPseudo) ":scheme" = 1 := by
              rw [← countName_reverse]
              have := i3
              rw [hhs] at this
              simpa using this
            have hm1 : countName headers ":method" = 1 := by
              conv_lhs => rw [← hsplit]
              rw [countName_append, cm, hcount0 ":method" (by decide)]
            have hp1 : countName headers ":path" = 1 := by
              conv_lhs => rw [← hsplit]
              rw [countName_append, cp, hcount0 ":path" (by decide)]
            have hs1 : countName headers ":scheme" = 1 := by
              conv_lhs => rw [← hsplit]
              rw [countName_append, cs, hcount0 ":scheme" (by decide)]
            unfold c7RequestBlockOk
            dsimp only
            simp only [Bool.and_eq_true, decide_eq_true_eq, List.all_eq_true,
              Bool.not_eq_true']
            refine ⟨⟨⟨⟨⟨⟨hm1, hp1⟩, hs1⟩, ?_⟩, ?_⟩, ?_⟩, ?_⟩
            · intro h hh
              rw [← hsplit] at hh
              intro hname
              rcases List.mem_append.mp hh with hmem | hmem
              · have := i5 h (List.mem_reverse.mpr hmem) hname
                rw [hpath] at this
                injection this with hvv
                rw [← hvv]
                exact hpne
              · have hp2 : isPseudo h = true := by
                  unfold isPseudo
                  rw [hname]
                  rfl
                have hf := (hregF h hmem).1
                rw [hp2] at hf
                cases hf
            · intro h hh
              rw [← hsplit] at hh
              rcases List.mem_append.mp hh with hmem | hmem
              · exact hasUpper_of_known h (i4 h (List.mem_reverse.mpr hmem))
              · exact (hregF h hmem).2
            · intro h hh
              exact (hregF h hh).1
            · intro h hh
              exact i4 h (List.mem_reverse.mpr hh)
    · have hregf : regularOk (headers.drop (headers.takeWhile isPseudo).length) = false := by
        cases hb : regularOk (headers.drop (headers.takeWhile isPseudo).length)
        · rfl
        · exact absurd hb hreg
      rw [if_pos (by rw [hregf]; rfl)] at hv
      cases hv

/-- `cno_frame_write_rst_stream` emits only the RST_STREAM frame and
possibly an `on_stream_end` callback — never a message delivery. -/
theorem write_rst_stream_evs (c : CnoConn) (sid code : Nat)
    (h : 4 ≤ c.settingsRemote.max_frame_size) :
    ∀ e ∈ (cno_frame_write_rst_stream c sid code).evs,
      e = Ev.frame ⟨CNO_FRAME_RST_STREAM, {}, sid, i32 code⟩ ∨ e = Ev.streamEnd sid := by
  unfold cno_frame_write_rst_stream
  rw [cno_frame_write_single _ _ (by rw [i32_length]; exact h)]
  dsimp only
  split
  · intro e he
    left
    simpa using he
  · intro e he
    simp [cno_stream_rst_by_local, cno_stream_rst] at he
    rcases he with h1 | h1
    · exact Or.inl h1
    · exact Or.inr h1

def fixtureC7 : CnoConn :=
  { cno_connection_init false with
    state := ConnState.ready
    streams := [⟨1, { headers := true }, 65535, 65535⟩]
    streamCountRemote := 1 }

/-- Counterexample to claim C7 as stated: a request block with *two*
`:authority` headers (and everything else in order) is accepted — the
`:authority` branch of the scan jumps straight to `save_header` with no
duplicate check — so the message is delivered instead of the claimed
RST_STREAM(PROTOCOL_ERROR). -/
theorem c7_authority_counterexample :
    countName [⟨":method", "GET"⟩, ⟨":scheme", "http"⟩, ⟨":path", "/"⟩,
        ⟨":authority", "a"⟩, ⟨":authority", "b"⟩, ⟨"x", "y"⟩] ":authority" = 2 ∧
    (cno_frame_handle_message fixtureC7 1 {}
      [⟨":method", "GET"⟩, ⟨":scheme", "http"⟩, ⟨":path", "/"⟩,
        ⟨":authority", "a"⟩, ⟨":authority", "b"⟩, ⟨"x", "y"⟩]).err = none ∧
    (cno_frame_handle_message fixtureC7 1 {}
      [⟨":method", "GET"⟩, ⟨":scheme", "http"⟩, ⟨":path", "/"⟩,
        ⟨":authority", "a"⟩, ⟨":authority", "b"⟩, ⟨"x", "y"⟩]).evs =
      [Ev.messageStart 1 ⟨0, "GET", "/",
        [⟨":scheme", "http"⟩, ⟨":authority", "a"⟩, ⟨":authority", "b"⟩,
          ⟨"x", "y"⟩]⟩] := by
  refine ⟨by decide, by decide, by decide⟩

/-- Claim C7, amended (the `:authority` multiplicity clause is dropped —
any number of `:authority` headers is accepted): on a server connection,
for a header block that is not trailers, if the block does not satisfy
`c7RequestBlockOk` — exactly one `:method`, exactly one `:path` with a
non-empty value, exactly one `:scheme`, no uppercase ASCII letter in any
name, no pseudo-header after a regular one, no unknown pseudo-header —
then `cno_frame_handle_message` degrades to
`cno_frame_write_rst_stream(stream, PROTOCOL_ERROR)`: no message is
delivered (the trace holds only the RST_STREAM frame and possibly
`on_stream_end`) and no error is returned, so the connection stays
usable. -/
theorem c7_request_validation (c : CnoConn) (sid : Nat) (flags : CnoFlags)
    (headers : List CnoHeader)
    (hcl : c.client = false)
    (htr : (streamAccept c sid).trailers = false)
    (hbad : c7RequestBlockOk headers = false)
    (hlimit : 4 ≤ c.settingsRemote.max_frame_size) :
    cno_frame_handle_message c sid flags headers =
      cno_frame_write_rst_stream c sid CNO_RST_PROTOCOL_ERROR ∧
    (cno_frame_handle_message c sid flags headers).err = none ∧
    ∀ e ∈ (cno_frame_handle_message c sid flags headers).evs,
      e = Ev.frame ⟨CNO_FRAME_RST_STREAM, {}, sid, i32 CNO_RST_PROTOCOL_ERROR⟩ ∨
      e = Ev.streamEnd sid := by
  have hval : validateMessage false false headers = none := by
    cases hv : validateMessage false false headers with
    | none => rfl
    | some msg =>
      rw [c7_of_validate hv] at hbad
      cases hbad
  have heq : cno_frame_handle_message c sid flags headers =
      cno_frame_write_rst_stream c sid CNO_RST_PROTOCOL_ERROR := by
    unfold cno_frame_handle_message
    rw [hcl]
    simp only [Bool.false_and]
    rw [htr, hval]
  refine ⟨heq, ?_, ?_⟩
  · rw [heq]
    exact write_rst_stream_err c sid _ hlimit
  · rw [heq]
    exact write_rst_stream_evs c sid _ hlimit

/-- Witness for `c7_request_validation`: a request block whose only pseudo
header is `:path` (no `:method`, no `:scheme`) is rejected with
RST_STREAM(PROTOCOL_ERROR). -/
theorem c7_request_validation_witness :
    (fixtureC7.client = false ∧
      (streamAccept fixtureC7 1).trailers = false ∧
      c7RequestBlockOk [⟨":path", "/"⟩, ⟨"x", "y"⟩] = false ∧
      4 ≤ fixtureC7.settingsRemote.max_frame_size) ∧
    (cno_frame_handle_message fixtureC7 1 {} [⟨":path", "/"⟩, ⟨"x", "y"⟩] =
      cno_frame_write_rst_stream fixtureC7 1 CNO_RST_PROTOCOL_ERROR ∧
    (cno_frame_handle_message fixtureC7 1 {} [⟨":path", "/"⟩, ⟨"x", "y"⟩]).err = none ∧
    ∀ e ∈ (cno_frame_handle_message fixtureC7 1 {} [⟨":path", "/"⟩, ⟨"x", "y"⟩]).evs,
      e = Ev.frame ⟨CNO_FRAME_RST_STREAM, {}, 1, i32 CNO_RST_PROTOCOL_ERROR⟩ ∨
      e = Ev.streamEnd 1) :=
  ⟨⟨by decide, by decide, by decide, by decide⟩,
    c7_request_validation fixtureC7 1 {} [⟨":path", "/"⟩, ⟨"x", "y"⟩]
      (by decide) (by decide) (by decide) (by decide)⟩

end Cno
